import Mathlib

/-!
Verification of the question-extraction / answer-alignment pipeline of
`homework_ai.py` (class `SmartHomeworkProcessor`).

The Python source is shallowly embedded:
* Python strings are `String`, finite Python floats are `Rat` (exact
  rationals: the claims under study only compare such numbers, never
  exercise binary rounding); the non-finite floats the JSON decoder can
  produce (`NaN`/`Infinity`/`-Infinity`) are explicit `Json` constructors.
* dynamic JSON values decoded by `json.loads` are the inductive `Json`;
  operations that Python performs on dynamic values (`dict.get`, iteration,
  truthiness, `str()`, `==`) are modelled by total or `Except`-valued
  functions, where `Except.error` marks a raised Python exception
  (`AttributeError` / `TypeError` / `ValueError` / `json.JSONDecodeError`).
* fallible code returns `Except String _`; code whose Python original
  catches every exception (`identify_questions_structure`) is total.
-/

/- ---------------------------------------------------------------
   Python string primitives used by the source
   --------------------------------------------------------------- -/

/-- Characters stripped by Python `str.strip()`: the Unicode whitespace
set of `str.isspace` — the ASCII controls 09-0D, the separators 1C-1F,
space, NEL 85, NBSP A0, Ogham space 1680, the fixed-width spaces
2000-200A, the line/paragraph separators 2028/2029, narrow NBSP 202F,
the math space 205F and the ideographic space 3000. -/
def wsChar (c : Char) : Bool :=
  decide ((9 ≤ c.toNat ∧ c.toNat ≤ 13) ∨ (28 ≤ c.toNat ∧ c.toNat ≤ 31) ∨ c.toNat = 32 ∨
    c.toNat = 0x85 ∨ c.toNat = 0xa0 ∨ c.toNat = 0x1680 ∨
    (0x2000 ≤ c.toNat ∧ c.toNat ≤ 0x200a) ∨ c.toNat = 0x2028 ∨ c.toNat = 0x2029 ∨
    c.toNat = 0x202f ∨ c.toNat = 0x205f ∨ c.toNat = 0x3000)

/-- `str.strip()` on a character list. -/
def stripChars (l : List Char) : List Char :=
  ((l.dropWhile wsChar).reverse.dropWhile wsChar).reverse

/-- Python `str.strip()`. -/
def pyStrip (s : String) : String := String.mk (stripChars s.data)

/-- Whether `sub` is a leading segment of `l`. -/
def hasPrefixChars : List Char → List Char → Bool
  | [], _ => true
  | _ :: _, [] => false
  | a :: as, b :: bs => a == b && hasPrefixChars as bs

/-- Whether `sub` occurs contiguously inside `l`. -/
def hasInfixChars (sub l : List Char) : Bool :=
  hasPrefixChars sub l ||
    (match l with
     | [] => false
     | _ :: t => hasInfixChars sub t)

/-- Python `sub in s` for strings (substring containment). -/
def pyContains (s sub : String) : Bool := hasInfixChars sub.data s.data

/-- First index of `c` in a character list. -/
def findIdxChars (c : Char) : List Char → Option Nat
  | [] => none
  | d :: t => if d == c then some 0 else (findIdxChars c t).map (· + 1)

/-- Python `s.find(c)` for a single character: first index or `-1`. -/
def pyFind (s : String) (c : Char) : Int :=
  match findIdxChars c s.data with
  | some n => (n : Int)
  | none => -1

/-- Python `s.rfind(c)` for a single character: last index or `-1`. -/
def pyRfind (s : String) (c : Char) : Int :=
  match findIdxChars c s.data.reverse with
  | some k => ((s.data.length : Int) - 1 - (k : Int))
  | none => -1

/-- Python slice `l[i:j]` index semantics (negative indices count from the
end, out-of-range indices are clamped). -/
def pySliceList (l : List Char) (i j : Int) : List Char :=
  (l.take ((if j < 0 then max 0 ((l.length : Int) + j) else min j (l.length : Int)).toNat)).drop
    ((if i < 0 then max 0 ((l.length : Int) + i) else min i (l.length : Int)).toNat)

/-- Python string slice `s[i:j]`. -/
def pySlice (s : String) (i j : Int) : String := String.mk (pySliceList s.data i j)

/-- If `sub` is a leading segment of `l`, return the remainder. -/
def dropPrefixChars? : List Char → List Char → Option (List Char)
  | [], l => some l
  | _ :: _, [] => none
  | a :: as, b :: bs => if a == b then dropPrefixChars? as bs else none

/-- Python `s.split(sep)` worker over character lists (`sep` nonempty;
`fuel` bounds the number of consumed characters). -/
def splitChars (sep : List Char) : Nat → List Char → List (List Char)
  | _, [] => [[]]
  | 0, l => [l]
  | fuel + 1, c :: rest =>
    match dropPrefixChars? sep (c :: rest) with
    | some rem => [] :: splitChars sep fuel rem
    | none =>
      match splitChars sep fuel rest with
      | [] => [[c]]
      | seg :: segs => (c :: seg) :: segs

/-- Python `s.split(sep)` for a nonempty separator. -/
def pySplit (s sep : String) : List String :=
  (splitChars sep.data (s.data.length + 1) s.data).map String.mk

/-- Value of a list of ASCII digits. -/
def digitsToNat (l : List Char) : Nat :=
  l.foldl (fun a c => a * 10 + (c.toNat - 48)) 0

/-- Python `int(s)` on a string: strip whitespace, optional sign, then a
nonempty ASCII digit run (digit-group underscores and non-ASCII digits,
which Python also accepts, are not modelled — no claim exercises them). -/
def pyIntOfString (s : String) : Option Int :=
  match stripChars s.data with
  | [] => none
  | c :: rest =>
    let p : Int × List Char :=
      if c = '-' then (-1, rest) else if c = '+' then (1, rest) else (1, c :: rest)
    if p.2 ≠ [] ∧ p.2.all Char.isDigit then some (p.1 * (digitsToNat p.2 : Int)) else none

/-- Python `int(f)` on a float: truncation toward zero. -/
def truncRat (q : Rat) : Int := if 0 ≤ q then q.floor else -((-q).floor)

/- ---------------------------------------------------------------
   Dynamic JSON values (result of Python json.loads)
   --------------------------------------------------------------- -/

/-- A decoded JSON value.  `json.loads` yields `None`/`bool`/`int`/`float`/
`str`/`list`/`dict`; object member lists keep source order (lookup takes the
last binding, as Python's decoder does for duplicate keys).  `float` covers
the finite floats (as exact rationals); the non-finite floats Python's
decoder also produces — from the `NaN`/`Infinity`/`-Infinity` literals —
are the separate `nan` and `inf` constructors (`inf true` is `-inf`). -/
inductive Json where
  | null : Json
  | bool : Bool → Json
  | int : Int → Json
  | float : Rat → Json
  | nan : Json
  | inf : Bool → Json
  | str : String → Json
  | arr : List Json → Json
  | obj : List (String × Json) → Json
deriving Inhabited

/-- Pointwise conjunction of a binary test over two lists. -/
def listBeqWith (f : α → β → Bool) : List α → List β → Bool
  | [], [] => true
  | x :: xs, y :: ys => f x y && listBeqWith f xs ys
  | _, _ => false

/-- Structural equality test on JSON values, with a fuel bound on nesting
depth (used to implement Python `==` on non-numeric values).  The final
catch-all makes `nan == nan` false, as Python's `float("nan") ==
float("nan")` is; infinities of equal sign compare equal. -/
def jsonBeqF : Nat → Json → Json → Bool
  | 0, _, _ => false
  | fuel + 1, a, b =>
    match a, b with
    | .null, .null => true
    | .bool x, .bool y => x == y
    | .int x, .int y => x == y
    | .float x, .float y => x == y
    | .str x, .str y => x == y
    | .inf x, .inf y => x == y
    | .arr xs, .arr ys => listBeqWith (jsonBeqF fuel) xs ys
    | .obj xs, .obj ys =>
      listBeqWith (fun u v : String × Json => u.1 == v.1 && jsonBeqF fuel u.2 v.2) xs ys
    | _, _ => false

/-- Structural equality on JSON values.  The depth cap of 32 is harmless:
the source applies `==` only to question ids, and every id is a scalar
(depth 1); no theorem below depends on the behaviour past the cap. -/
def jsonBeq (a b : Json) : Bool := jsonBeqF 32 a b

instance : BEq Json := ⟨jsonBeq⟩

/-- Python truthiness of a decoded JSON value. -/
def Json.truthy : Json → Bool
  | .null => false
  | .bool b => b
  | .int n => n != 0
  | .float q => q != 0
  | .nan => true
  | .inf _ => true
  | .str s => s != ""
  | .arr xs => !xs.isEmpty
  | .obj kvs => !kvs.isEmpty

/-- Dictionary lookup; with duplicate keys the last binding wins, matching
the behaviour of a Python `dict` built by the JSON decoder. -/
def jLookup (kvs : List (String × Json)) (k : String) : Option Json :=
  match kvs.reverse.find? (fun kv => kv.1 == k) with
  | some kv => some kv.2
  | none => none

/-- Python `x.get(k, d)`: raises `AttributeError` unless `x` is a dict. -/
def pyGetD : Json → String → Json → Except String Json
  | .obj kvs, k, d => .ok ((jLookup kvs k).getD d)
  | _, _, _ => .error "AttributeError: no attribute get"

/-- Python `x.get(k)` (default `None`). -/
def pyGet (j : Json) (k : String) : Except String Json := pyGetD j k .null

/-- Numeric value of a JSON scalar under Python's numeric tower
(`True == 1`, `1 == 1.0`). -/
def jNumVal : Json → Option Rat
  | .bool b => some (if b then 1 else 0)
  | .int n => some (n : Rat)
  | .float q => some q
  | _ => none

/-- Python `==` on decoded JSON values.  Cross-type numeric equality is
modelled at the top level; inside containers structural equality is used
(the source only ever compares ids, which are never mixed-numeric
containers). -/
def pyEq (a b : Json) : Bool :=
  match jNumVal a, jNumVal b with
  | some x, some y => x == y
  | _, _ => a == b

/-- Python `str()` of a decoded JSON value.  Floats are printed in plain
decimal (an approximation of `repr(float)`, exact on the short decimals
the claims exercise); containers are abbreviated to `"[...]"`/`"\x7b...\x7d"`
rather than Python's recursive repr — like the real `str()`, the
abbreviation is digit-free in front, which is all `extract_prefix`
(`prefix_of_qid` below, the one consumer of the container case) observes;
no claim's statement or counterexample rests on a container's exact
printed form. -/
def fracDigits : Nat → Rat → List Char
  | 0, _ => []
  | fuel + 1, q =>
    if q = 0 then []
    else
      let q10 := q * 10
      let d := q10.floor
      Char.ofNat (48 + d.toNat) :: fracDigits fuel (q10 - (d : Rat))

def ratPyRepr (q : Rat) : String :=
  let sign := if q < 0 then "-" else ""
  let a := |q|
  let ip := a.floor
  let ds := fracDigits 32 (a - (ip : Rat))
  sign ++ toString ip ++ "." ++ (if ds.isEmpty then "0" else String.mk ds)

def pyStr : Json → String
  | .null => "None"
  | .bool true => "True"
  | .bool false => "False"
  | .int n => toString n
  | .float q => ratPyRepr q
  | .nan => "nan"
  | .inf false => "inf"
  | .inf true => "-inf"
  | .str s => s
  | .arr _ => "[...]"
  | .obj _ => "\x7b...\x7d"

/-- Python iteration over a decoded JSON value (`for x in v`): lists yield
elements, strings yield 1-character strings, dicts yield their keys (first
occurrence order); other values raise `TypeError`. -/
def dedupKeysGo (seen : List String) : List String → List String
  | [] => []
  | k :: rest =>
    if seen.contains k then dedupKeysGo seen rest
    else k :: dedupKeysGo (k :: seen) rest

def pyIterate : Json → Except String (List Json)
  | .arr xs => .ok xs
  | .str s => .ok (s.data.map (fun c => .str (String.mk [c])))
  | .obj kvs => .ok ((dedupKeysGo [] (kvs.map Prod.fst)).map Json.str)
  | _ => .error "TypeError: not iterable"

/-- Reduction of a successful monadic step (used throughout to evaluate
the embedded do-blocks). -/
lemma exc_bind_ok {α β : Type} (a : α) (f : α → Except String β) :
    (Except.ok a : Except String α) >>= f = f a := rfl

/- ---------------------------------------------------------------
   json.loads
   --------------------------------------------------------------- -/

def lbrace : Char := '\x7b'
def rbrace : Char := '\x7d'

def jsonWsChar (c : Char) : Bool := c == ' ' || c == '\t' || c == '\n' || c == '\r'

def skipWs (l : List Char) : List Char := l.dropWhile jsonWsChar

def hexVal (c : Char) : Option Nat :=
  if '0' ≤ c ∧ c ≤ '9' then some (c.toNat - 48)
  else if 'a' ≤ c ∧ c ≤ 'f' then some (c.toNat - 87)
  else if 'A' ≤ c ∧ c ≤ 'F' then some (c.toNat - 55)
  else none

/-- Decode the body of a JSON string literal (after the opening quote), up
to and including the closing quote.  Escapes are handled as by Python's
decoder; a surrogate that cannot form a scalar value is replaced by U+FFFD
(Python would keep the lone surrogate — no claim exercises this). -/
def parseStrBody : List Char → Option (List Char × List Char)
  | [] => none
  | c :: rest =>
    if c = '"' then some ([], rest)
    else if c = '\\' then
      match rest with
      | [] => none
      | e :: rest2 =>
        let simple : Option Char :=
          if e = '"' then some '"'
          else if e = '\\' then some '\\'
          else if e = '/' then some '/'
          else if e = 'b' then some '\x08'
          else if e = 'f' then some '\x0c'
          else if e = 'n' then some '\n'
          else if e = 'r' then some '\r'
          else if e = 't' then some '\t'
          else none
        match simple with
        | some ch =>
          match parseStrBody rest2 with
          | some (tl, rem) => some (ch :: tl, rem)
          | none => none
        | none =>
          if e = 'u' then
            match rest2 with
            | a :: b :: c2 :: d :: rest3 =>
              match hexVal a, hexVal b, hexVal c2, hexVal d with
              | some ha, some hb, some hc, some hd =>
                let n := ((ha * 16 + hb) * 16 + hc) * 16 + hd
                let ch := if n < 0xd800 ∨ 0xdfff < n then Char.ofNat n else Char.ofNat 0xfffd
                match parseStrBody rest3 with
                | some (tl, rem) => some (ch :: tl, rem)
                | none => none
              | _, _, _, _ => none
            | _ => none
          else none
    else if c.toNat < 0x20 then none
    else
      match parseStrBody rest with
      | some (tl, rem) => some (c :: tl, rem)
      | none => none

/-- Decode a finite JSON number token (strict grammar; the non-finite
literals `NaN`/`Infinity`/`-Infinity`, which Python's decoder also
accepts, are separate branches of `parseVal`).  Returns `Json.int` when
there is no fraction and no exponent, else `Json.float`. -/
def parseNum (l : List Char) : Option (Json × List Char) :=
  let sgn : Int × List Char := match l with
    | '-' :: t => (-1, t)
    | _ => (1, l)
  let l1 := sgn.2
  let ip := l1.takeWhile Char.isDigit
  let r1 := l1.dropWhile Char.isDigit
  if ip = [] then none
  else if 1 < ip.length ∧ ip.head? = some '0' then none
  else
    let ipn : Nat := digitsToNat ip
    let fracP : Option (List Char × List Char) := match r1 with
      | '.' :: r2 =>
        let fd := r2.takeWhile Char.isDigit
        if fd = [] then none else some (fd, r2.dropWhile Char.isDigit)
      | _ => some ([], r1)
    match fracP with
    | none => none
    | some (fd, r2) =>
      let expP : Option (Option Int × List Char) := match r2 with
        | e :: r3 =>
          if e = 'e' ∨ e = 'E' then
            let seg : Int × List Char := match r3 with
              | '-' :: t => (-1, t)
              | '+' :: t => (1, t)
              | _ => (1, r3)
            let ed := seg.2.takeWhile Char.isDigit
            if ed = [] then none
            else some (some (seg.1 * (digitsToNat ed : Int)), seg.2.dropWhile Char.isDigit)
          else some (none, r2)
        | [] => some (none, r2)
      match expP with
      | none => none
      | some (eo, rest) =>
        match fd, eo with
        | [], none => some (.int (sgn.1 * (ipn : Int)), rest)
        | _, _ =>
          let base : Rat := (ipn : Rat) + (digitsToNat fd : Rat) / ((10 : Rat) ^ fd.length)
          let scaled : Rat := match eo with
            | none => base
            | some e => if 0 ≤ e then base * (10 : Rat) ^ e.toNat else base / (10 : Rat) ^ (-e).toNat
          some (.float ((sgn.1 : Rat) * scaled), rest)

/-- Decode the elements of a (nonempty) JSON array, accumulator in reverse;
`pv` decodes one value, `fuel` bounds the number of elements. -/
def parseItemsF (pv : List Char → Option (Json × List Char)) :
    Nat → List Char → List Json → Option (Json × List Char)
  | 0, _, _ => none
  | fuel + 1, l, acc =>
    match pv l with
    | none => none
    | some (v, r) =>
      match skipWs r with
      | ',' :: r2 => parseItemsF pv fuel r2 (v :: acc)
      | ']' :: r2 => some (.arr (v :: acc).reverse, r2)
      | _ => none

/-- Decode the members of a (nonempty) JSON object, accumulator in reverse. -/
def parseMembersF (pv : List Char → Option (Json × List Char)) :
    Nat → List Char → List (String × Json) → Option (Json × List Char)
  | 0, _, _ => none
  | fuel + 1, l, acc =>
    match skipWs l with
    | '"' :: r =>
      match parseStrBody r with
      | none => none
      | some (kcs, r2) =>
        match skipWs r2 with
        | ':' :: r3 =>
          match pv r3 with
          | none => none
          | some (v, r4) =>
            match skipWs r4 with
            | ',' :: r5 => parseMembersF pv fuel r5 ((String.mk kcs, v) :: acc)
            | d :: r5 =>
              if d = rbrace then some (.obj ((String.mk kcs, v) :: acc).reverse, r5) else none
            | [] => none
        | _ => none
    | _ => none

/-- Decode one JSON value from the front of `l`, skipping leading
whitespace; `fuel` bounds the nesting depth.  As in Python's decoder, the
non-finite literals `NaN`, `Infinity` and `-Infinity` are accepted
wherever a value is expected. -/
def parseVal : Nat → List Char → Option (Json × List Char)
  | 0, _ => none
  | fuel + 1, l =>
    match skipWs l with
    | [] => none
    | c :: rest =>
      if c = 'n' then
        match rest with
        | 'u' :: 'l' :: 'l' :: r => some (.null, r)
        | _ => none
      else if c = 't' then
        match rest with
        | 'r' :: 'u' :: 'e' :: r => some (.bool true, r)
        | _ => none
      else if c = 'f' then
        match rest with
        | 'a' :: 'l' :: 's' :: 'e' :: r => some (.bool false, r)
        | _ => none
      else if c = '"' then
        match parseStrBody rest with
        | some (cs, r) => some (.str (String.mk cs), r)
        | none => none
      else if c = '[' then
        match skipWs rest with
        | ']' :: r => some (.arr [], r)
        | _ => parseItemsF (parseVal fuel) (rest.length + 1) rest []
      else if c = lbrace then
        match skipWs rest with
        | d :: r =>
          if d = rbrace then some (.obj [], r)
          else parseMembersF (parseVal fuel) (rest.length + 1) rest []
        | [] => none
      else if c = 'N' then
        match rest with
        | 'a' :: 'N' :: r => some (.nan, r)
        | _ => none
      else if c = 'I' then
        match rest with
        | 'n' :: 'f' :: 'i' :: 'n' :: 'i' :: 't' :: 'y' :: r => some (.inf false, r)
        | _ => none
      else if c = '-' then
        match rest with
        | 'I' :: 'n' :: 'f' :: 'i' :: 'n' :: 'i' :: 't' :: 'y' :: r => some (.inf true, r)
        | _ => parseNum (c :: rest)
      else if c.isDigit then parseNum (c :: rest)
      else none

/-- Python `json.loads`: the whole input must be one JSON value surrounded
only by whitespace. -/
def json_loads (s : String) : Option Json :=
  match parseVal (s.data.length + 1) s.data with
  | some (v, rest) => if (skipWs rest).isEmpty then some v else none
  | none => none

/- ---------------------------------------------------------------
   Element model and element ordering  (PageElement, line 241)
   --------------------------------------------------------------- -/

/-- The three values the source stores in `PageElement.type`
("text" | "image" | "page_image"). -/
inductive ElemKind where
  | text : ElemKind
  | image : ElemKind
  | page_image : ElemKind
deriving DecidableEq, Inhabited

/-- `PageElement` (dataclass): `bbox` is split into its four components;
`center_y` is the derived field `(bbox[1] + bbox[3]) / 2` computed by
`__post_init__`, exposed below as a function (it is never written
independently, so value equality of the dataclass coincides with field
equality here). -/
structure PageElement where
  type : ElemKind
  content : String
  x0 : Rat
  y0 : Rat
  x1 : Rat
  y1 : Rat
  page_num : Int
deriving DecidableEq, Inhabited

def PageElement.center_y (e : PageElement) : Rat := (e.y0 + e.y1) / 2

/-- The sort key of line 241: `(x.page_num, x.center_y)`. -/
def elemKey (e : PageElement) : Int × Rat := (e.page_num, e.center_y)

/-- Lexicographic comparison on the sort key. -/
def elemLe (a b : PageElement) : Prop :=
  a.page_num < b.page_num ∨ (a.page_num = b.page_num ∧ a.center_y ≤ b.center_y)

instance : DecidableRel elemLe := fun a b => by unfold elemLe; infer_instance

instance : IsTotal PageElement elemLe := ⟨by
  intro a b
  rcases lt_trichotomy a.page_num b.page_num with h | h | h
  · exact Or.inl (Or.inl h)
  · rcases le_total a.center_y b.center_y with h2 | h2
    · exact Or.inl (Or.inr ⟨h, h2⟩)
    · exact Or.inr (Or.inr ⟨h.symm, h2⟩)
  · exact Or.inr (Or.inl h)⟩

instance : IsTrans PageElement elemLe := ⟨by
  intro a b c hab hbc
  rcases hab with h1 | ⟨h1, h2⟩ <;> rcases hbc with h3 | ⟨h3, h4⟩
  · exact Or.inl (h1.trans h3)
  · exact Or.inl (h3 ▸ h1)
  · exact Or.inl (h1 ▸ h3)
  · exact Or.inr ⟨h1.trans h3, h2.trans h4⟩⟩

/-- Line 241, `elements.sort(key=lambda x: (x.page_num, x.center_y))`.
Python's `list.sort` is a stable sort by the given key; a stable sort is
determined extensionally by key and input order, so insertion sort (stable
for `elemLe`, proved below) is an exact model. -/
def sort_elements (l : List PageElement) : List PageElement :=
  l.insertionSort elemLe

/- ---------------------------------------------------------------
   Resilient JSON extraction (lines 259-264, repeated at 481-485)
   --------------------------------------------------------------- -/

/-- Python `s.startswith(p)`. -/
def pyStartsWith (s p : String) : Bool := hasPrefixChars p.data s.data

/-- The JSON-selection snippet shared verbatim by
`identify_questions_structure` (lines 259-264) and `answer_questions`
(lines 481-485): if the response contains a ```json fence, take what
stands between `\x60\x60\x60json` and the next fence, else slice from the
first `\x7b` to the last `\x7d` (Python slice semantics, so a missing brace
gives index `-1`); both branches end with `.strip()`. -/
def extract_json_str (result : String) : String :=
  if pyContains result "```json" then
    pyStrip ((pySplit ((pySplit result "```json").getD 1 "") "```").getD 0 "")
  else
    pyStrip (pySlice result (pyFind result lbrace) (pyRfind result rbrace + 1))

/- ---------------------------------------------------------------
   Regex fallback recognition (parse_questions_regex, lines 281-309)

   The patterns' `\s` is modelled by `wsChar` (Python's Unicode
   whitespace set); their `\d` is modelled by ASCII `Char.isDigit` — the
   source's `\d` also matches other Unicode decimal digits, a documented
   approximation that no claim's statement or counterexample exercises.
   --------------------------------------------------------------- -/

/-- Pattern 1: `^(\d+)\s*[.、。)]`. -/
def matchP1 (l : List Char) : Option String :=
  let ds := l.takeWhile Char.isDigit
  if ds = [] then none
  else
    match (l.dropWhile Char.isDigit).dropWhile wsChar with
    | c :: _ =>
      if c = '.' ∨ c = '、' ∨ c = '。' ∨ c = ')' then some (String.mk ds) else none
    | [] => none

/-- Pattern 2: `^第\s*(\d+)\s*题`. -/
def matchP2 (l : List Char) : Option String :=
  match l with
  | c :: rest =>
    if c = '第' then
      let r1 := rest.dropWhile wsChar
      let ds := r1.takeWhile Char.isDigit
      if ds = [] then none
      else
        match (r1.dropWhile Char.isDigit).dropWhile wsChar with
        | d :: _ => if d = '题' then some (String.mk ds) else none
        | [] => none
    else none
  | [] => none

/-- Pattern 3: `^题\s*(\d+)`. -/
def matchP3 (l : List Char) : Option String :=
  match l with
  | c :: rest =>
    if c = '题' then
      let ds := (rest.dropWhile wsChar).takeWhile Char.isDigit
      if ds = [] then none else some (String.mk ds)
    else none
  | [] => none

/-- Pattern 4: `^([0-9]+[a-zA-Z]?)\s*[.、\)]` (the `1a`, `2b` style; note
its delimiter class has no `。`).  The regex needs no backtracking: the
optional letter can never itself satisfy the delimiter class. -/
def matchP4 (l : List Char) : Option String :=
  let ds := l.takeWhile Char.isDigit
  if ds = [] then none
  else
    let r1 := l.dropWhile Char.isDigit
    let idAndRest : List Char × List Char :=
      match r1 with
      | c :: rest2 => if c.isAlpha then (ds ++ [c], rest2) else (ds, r1)
      | [] => (ds, [])
    match idAndRest.2.dropWhile wsChar with
    | c :: _ =>
      if c = '.' ∨ c = '、' ∨ c = ')' then some (String.mk idAndRest.1) else none
    | [] => none

/-- First matching pattern wins, in the fixed priority order of lines
292-297. -/
def matchLine (l : List Char) : Option String :=
  (matchP1 l).orElse fun _ =>
    (matchP2 l).orElse fun _ =>
      (matchP3 l).orElse fun _ => matchP4 l

/-- The question dict built at lines 301-306. -/
def fragJson (qid text : String) : Json :=
  .obj [("id", .str qid), ("text", .str text),
        ("related_elements", .arr []), ("pages", .arr [.int 1])]

/-- `parse_questions_regex` (lines 281-309): concatenate the text elements,
split into lines, strip each, skip empties, emit one question dict per
line whose start matches a numbering pattern. -/
def parse_questions_regex (elements : List PageElement) : List Json :=
  let text_content :=
    elements.foldl (fun acc e => if e.type = .text then acc ++ e.content ++ "\n" else acc) ""
  (pySplit text_content "\n").filterMap fun rawLine =>
    let line := pyStrip rawLine
    if line = "" then none
    else
      match matchLine line.data with
      | some qid => some (fragJson qid line)
      | none => none

/- ---------------------------------------------------------------
   Prefix grouping (group_questions_by_pfx, lines 312-341)
   --------------------------------------------------------------- -/

/-- `extract_prefix` of line 321: the leading digit run of `str(qid)`, or
the whole of `str(qid)` when it has no leading digits. -/
def prefix_of_qid (qid : Json) : String :=
  let s := pyStr qid
  let ds := s.data.takeWhile Char.isDigit
  if ds = [] then s else String.mk ds

/-- The subquestion dict appended at lines 333-338 (raises if `q` is not a
dict, exactly where Python's `q.get` would). -/
def mkSubJson (q : Json) : Except String Json := do
  let i ← pyGetD q "id" (.str "")
  let t ← pyGetD q "text" (.str "")
  let re ← pyGetD q "related_elements" (.arr [])
  let pg ← pyGetD q "pages" (.arr [])
  .ok (.obj [("id", i), ("text", t), ("related_elements", re), ("pages", pg)])

/-- The loop of lines 326-339, carrying the open problem `(pid, subs)`. -/
def group_go : String → List Json → List Json → Except String (List (String × List Json))
  | pid, subs, [] => .ok [(pid, subs)]
  | pid, subs, q :: rest => do
    let qid ← pyGetD q "id" (.str "")
    let p := prefix_of_qid qid
    let sub ← mkSubJson q
    if p = pid then group_go pid (subs ++ [sub]) rest
    else do
      let tail ← group_go p [sub] rest
      .ok ((pid, subs) :: tail)

/-- The problem dict created at line 330 (with its subquestions filled). -/
def probJson (pid : String) (subs : List Json) : Json :=
  .obj [("id", .str pid), ("text", .str ""), ("related_elements", .arr []),
        ("pages", .arr []), ("subquestions", .arr subs)]

/-- The source's group-questions-by-prefix function (lines 312-341),
shortened to `_pfx` here. -/
def group_questions_by_pfx : List Json → Except String (List Json)
  | [] => .ok []
  | q :: rest => do
    let qid ← pyGetD q "id" (.str "")
    let p := prefix_of_qid qid
    let sub ← mkSubJson q
    let groups ← group_go p [sub] rest
    .ok (groups.map fun g => probJson g.1 g.2)

/- ---------------------------------------------------------------
   Structure inference (identify_questions_structure, lines 220-278)
   --------------------------------------------------------------- -/

/-- The sentinel returned by `safe_api_call` when every retry failed
(line 202). -/
def apiFailSentinel : String := "❌ API调用最终失败"

/-- Values Python's `len()` accepts: strings, lists and dicts among the
decoder's outputs; `len()` of anything else raises `TypeError`. -/
def sizedJ : Json → Bool
  | .str _ => true
  | .arr _ => true
  | .obj _ => true
  | _ => false

/-- The `try:` body of `identify_questions_structure` (lines 256-272);
`Except.error` marks an exception, to be caught by the handler of line
273.  Line 267 logs `len(problems)`, so a truthy non-sized `problems`
value (an int, float or `True`) raises `TypeError` here and takes the
fallback. -/
def identify_try (result : String) : Except String Json :=
  if result = "" ∨ pyStartsWith result "❌" then .error "ValueError"
  else
    match json_loads (extract_json_str result) with
    | none => .error "json.JSONDecodeError"
    | some parsed => do
      let problemsRaw ← pyGet parsed "problems"
      let problems : Json := if problemsRaw.truthy then problemsRaw else .arr []
      if !sizedJ problems then .error "TypeError: len"
      else if problems.truthy then .ok problems
      else do
        let questionsRaw ← pyGet parsed "questions"
        match questionsRaw with
        | .arr qs => do
          let probs ← group_questions_by_pfx qs
          .ok (.arr probs)
        | _ => .ok problems

/-- `identify_questions_structure` (lines 220-278).  Line 241 sorts the
element list in place before building the oracle request; the oracle
response is the parameter `result` (the network call itself is outside the
model).  Any exception in the `try:` body falls back to
regex-plus-grouping; an exception inside the handler itself (impossible:
regex fragments are well-formed dicts, see
`regex_frags_obj` below) would propagate, hence the `Except` codomain. -/
def identify_questions_structure (result : String) (elements : List PageElement) :
    Except String Json :=
  let sorted := sort_elements elements
  match identify_try result with
  | .ok probs => .ok probs
  | .error _ => do
    let probs ← group_questions_by_pfx (parse_questions_regex sorted)
    .ok (.arr probs)

/- ---------------------------------------------------------------
   Element matching (match_questions_with_elements, lines 344-397,
   with smart_infer_elements, lines 399-428)
   --------------------------------------------------------------- -/

/-- Resolve one entry of a `related_elements` JSON value against the
element list, per `if 0 <= idx < len(elements): append(elements[idx])`:
an in-range int keeps its element, an out-of-range int (or float) is
silently dropped, an in-range float raises `TypeError` at `elements[idx]`,
a non-finite float fails the range test and is dropped (`0 <= nan` and
`inf < len` are `False`), and a non-numeric entry raises `TypeError` at
the comparison (`bool` counts as `int` in Python). -/
def idxSelect (elements : List PageElement) : Json → Except String (Option PageElement)
  | .int n =>
    .ok (if 0 ≤ n ∧ n < (elements.length : Int) then elements.get? n.toNat else none)
  | .bool b =>
    .ok (if b ∧ 1 < elements.length then elements.get? 1
         else if !b ∧ 0 < elements.length then elements.get? 0 else none)
  | .float q =>
    if 0 ≤ q ∧ q < (elements.length : Rat) then .error "TypeError: list index" else .ok none
  | .nan => .ok none
  | .inf _ => .ok none
  | _ => .error "TypeError: order comparison"

/-- The index-resolution loops of lines 356-358 and 364-366. -/
def resolveIndices (elements : List PageElement) (v : Json) :
    Except String (List PageElement) := do
  let items ← pyIterate v
  let opts ← items.mapM (idxSelect elements)
  .ok (opts.filterMap id)

/-- Page tokens `set.update` accepts (hashable): everything the decoder
produces except lists and dicts. -/
def hashableJ : Json → Bool
  | .arr _ => false
  | .obj _ => false
  | _ => true

/-- One declared page token's contribution to the page window (lines
412-420).  An int (or bool — `isinstance(p, int)`) page contributes a
`\x7bp-1, p, p+1\x7d` window; otherwise `int(p)` is tried, so floats and
numeric strings also contribute a window; any other token reaches the
bare `except:` handler, which keeps a hashable token (a non-numeric
string, `None`, `nan`, an infinity) verbatim — but for a list or dict
token `page_range.update([p])` inside that handler raises an uncaught
`TypeError: unhashable type`. -/
def pageWindow : Json → Except String (List Json)
  | .int n => .ok [.int (n - 1), .int n, .int (n + 1)]
  | .bool b => .ok (if b then [.int 0, .int 1, .int 2] else [.int (-1), .int 0, .int 1])
  | .float q => .ok [.int (truncRat q - 1), .int (truncRat q), .int (truncRat q + 1)]
  | .str s =>
    match pyIntOfString s with
    | some n => .ok [.int (n - 1), .int n, .int (n + 1)]
    | none => .ok [.str s]
  | .arr _ => .error "TypeError: unhashable"
  | .obj _ => .error "TypeError: unhashable"
  | p => .ok [p]

/-- Membership of an element's page number in the window (`e.page_num in
page_range`), with Python's cross-type numeric equality. -/
def pageInRange (n : Int) (toks : List Json) : Bool :=
  toks.any fun t =>
    match t with
    | .int m => m == n
    | .bool b => (if b then (1 : Int) else 0) == n
    | .float q => q == (n : Rat)
    | _ => false

/-- The condition of line 426 on a text element: `question_text and
question_text.strip() and question_text in element.content`.  A falsy
`question_text` short-circuits to false; a truthy non-string raises
`AttributeError` at `.strip()`. -/
def textCondition (qt : Json) (content : String) : Except String Bool :=
  if !qt.truthy then .ok false
  else
    match qt with
    | .str s => .ok (pyStrip s != "" && pyContains content s)
    | _ => .error "AttributeError: strip"

/-- The candidate loop of lines 422-427: keep every image-kind element;
keep a text element iff `textCondition` holds. -/
def candFilter (qt : Json) : List PageElement → Except String (List PageElement)
  | [] => .ok []
  | e :: rest =>
    match e.type with
    | .image | .page_image => do
      let tl ← candFilter qt rest
      .ok (e :: tl)
    | .text => do
      let keep ← textCondition qt e.content
      let tl ← candFilter qt rest
      .ok (if keep then e :: tl else tl)

/-- `smart_infer_elements` (lines 399-428), for a dict argument — the only
shape the source ever passes (`match_questions_with_elements` always hands
it the raw subquestion dict, never a `Question`). -/
def smart_infer_elements (question_info : Json) (elements : List PageElement) :
    Except String (List PageElement) := do
  let question_text ← pyGetD question_info "text" (.str "")
  let question_pages ← pyGetD question_info "pages" (.arr [.int 1])
  let ptoks ← pyIterate question_pages
  let windows ← ptoks.mapM pageWindow
  let page_range := windows.flatten
  let candidate_elements := elements.filter fun e => pageInRange e.page_num page_range
  let related ← candFilter question_text candidate_elements
  .ok (if related.isEmpty then candidate_elements.take 3 else related)

/-- The `Question` class (lines 53-60); `images`/`page_nums`/`elements`
fall back to `[]` when falsy (`x or []`). -/
structure Question where
  id : Json
  text : Json
  images : List String
  page_nums : Json
  related_elements : List PageElement

/-- The per-problem dict built at lines 388-394. -/
structure MatchedProblem where
  id : Json
  text : Json
  pages : Json
  related_elements : List PageElement
  subquestions : List Question

/-- The subquestion body of the loop at lines 361-380. -/
def match_sub (elements : List PageElement) (sub : Json) : Except String Question := do
  let re ← pyGetD sub "related_elements" (.arr [])
  let related0 ← resolveIndices elements re
  let related ← if related0.isEmpty then smart_infer_elements sub elements else .ok related0
  let question_images :=
    (related.filter fun e => e.type = .image ∨ e.type = .page_image).map PageElement.content
  let qid ← pyGetD sub "id" (.str "")
  let qtext ← pyGetD sub "text" (.str "")
  let qpages ← pyGetD sub "pages" (.arr [])
  .ok { id := qid, text := qtext, images := question_images,
        page_nums := if qpages.truthy then qpages else .arr [],
        related_elements := related }

/-- The per-problem body of the loop at lines 351-396: resolve the
problem-level indices, match every subquestion, and union the related
elements in first-seen order without duplicates (`if e not in combined`,
dataclass value equality). -/
def match_problem (elements : List PageElement) (p_idx : Nat) (prob : Json) :
    Except String MatchedProblem := do
  let prob_id ← pyGetD prob "id" (.str ("p" ++ toString p_idx))
  let preJ ← pyGetD prob "related_elements" (.arr [])
  let prob_related ← resolveIndices elements preJ
  let subsJ ← pyGetD prob "subquestions" (.arr [])
  let subItems ← pyIterate subsJ
  let subqs ← subItems.mapM (match_sub elements)
  let combined := subqs.foldl
    (fun acc sq => sq.related_elements.foldl
      (fun a e => if a.contains e then a else a ++ [e]) acc)
    prob_related
  let ptext ← pyGetD prob "text" (.str "")
  let ppages ← pyGetD prob "pages" (.arr [])
  .ok { id := prob_id, text := ptext, pages := ppages,
        related_elements := combined, subquestions := subqs }

/-- The `for p_idx, prob in enumerate(problems_info)` loop of line 351. -/
def match_problems_go (elements : List PageElement) : Nat → List Json →
    Except String (List MatchedProblem)
  | _, [] => .ok []
  | i, p :: rest => do
    let mp ← match_problem elements i p
    let tl ← match_problems_go elements (i + 1) rest
    .ok (mp :: tl)

/-- `match_questions_with_elements` (lines 344-397). -/
def match_questions_with_elements (problems_info : Json) (elements : List PageElement) :
    Except String (List MatchedProblem) := do
  let items ← pyIterate problems_info
  match_problems_go elements 0 items

/- ---------------------------------------------------------------
   Answer aggregation (answer_questions, lines 432-547)
   --------------------------------------------------------------- -/

/-- One aligned answer record (the dict appended at lines 517-524). -/
structure SubResult where
  problem_id : Json
  sub_id : Json
  sub_text : Json
  sub_images : List String
  answer : Json
  reason : Json

/-- One per-problem result (the dict appended at lines 541-546). -/
structure ProbResult where
  problem_id : Json
  problem_text : Json
  num_subquestions : Nat
  subanswers : List SubResult

/-- The `try:` body of lines 478-491: on success, the pair
`(model_problem_text, parsed_answers)`; `model_problem_text` is `None`
(`Json.null`) when absent, and both `parsed.get` calls are guarded by
`isinstance(parsed, dict)`, so a successfully decoded non-dict yields
`(None, [])` without raising.  Line 491 logs `len(parsed_answers)`, so a
non-sized `answers` value raises `TypeError` here and the whole response
takes the raw-text `except:` fallback. -/
def answer_parse_try (ai_resp : String) : Except String (Json × Json) :=
  if ai_resp = "" ∨ pyStartsWith ai_resp "❌" then .error "ValueError"
  else
    match json_loads (extract_json_str ai_resp) with
    | none => .error "json.JSONDecodeError"
    | some parsed =>
      let mp : Json × Json :=
        match parsed with
        | .obj kvs =>
          ((jLookup kvs "problem_text").getD .null, (jLookup kvs "answers").getD (.arr []))
        | _ => (.null, .arr [])
      if sizedJ mp.2 then .ok mp else .error "TypeError: len"

/-- The `except:` branch of lines 491-497: one synthesized answer per
subquestion carrying the raw response text. -/
def failureAnswers (ai_resp : String) (subqs : List Question) : Json :=
  .arr (subqs.map fun sq =>
    .obj [("sub_id", sq.id), ("answer", .str ai_resp), ("reason", .str "")])

/-- The alignment body of lines 501-524 for one parsed answer entry
`ans` at position `idx`: resolve `sub_id` (positional default), find the
subquestion first by id (Python `==`), then positionally, and emit the
record with the subquestion's own text/images. -/
def alignOne (prob_id : Json) (subqs : List Question) (idx : Nat) (ans : Json) :
    Except String SubResult := do
  let sid0 ← pyGet ans "sub_id"
  let sub_id : Json :=
    if sid0.truthy then sid0
    else match subqs.get? idx with
      | some sq => sq.id
      | none => .null
  let byId : Option Question :=
    if sub_id.truthy then subqs.find? fun s => pyEq s.id sub_id else none
  let sq_obj : Option Question :=
    match byId with
    | some s => some s
    | none => subqs.get? idx
  let answer ← pyGet ans "answer"
  let reason ← pyGetD ans "reason" (.str "")
  .ok { problem_id := prob_id,
        sub_id := sub_id,
        sub_text := match sq_obj with | some s => s.text | none => .str "",
        sub_images := match sq_obj with | some s => s.images | none => [],
        answer := answer, reason := reason }

/-- The `for idx, ans in enumerate(parsed_answers)` loop of line 501. -/
def align_go (prob_id : Json) (subqs : List Question) : Nat → List Json →
    Except String (List SubResult)
  | _, [] => .ok []
  | i, a :: rest => do
    let r ← alignOne prob_id subqs i a
    let tl ← align_go prob_id subqs (i + 1) rest
    .ok (r :: tl)

/-- Line 539: `model_problem_text if (model_problem_text and
model_problem_text.strip()) else prob_text`; a truthy non-string
`problem_text` raises `AttributeError` at `.strip()`. -/
def finalText (mpt prob_text : Json) : Except String Json :=
  if !mpt.truthy then .ok prob_text
  else
    match mpt with
    | .str s => .ok (if pyStrip s != "" then mpt else prob_text)
    | _ => .error "AttributeError: strip"

/-- The loop body of `answer_questions` (lines 441-546) for one problem;
`ai_resp` is the oracle's response for this problem (the network call
itself is outside the model).  The prompt-building code (lines 447-472)
only feeds the oracle and is not modelled. -/
def answer_one (ai_resp : String) (prob : MatchedProblem) : Except String ProbResult := do
  let prob_text : Json := if prob.text.truthy then prob.text else .str ""
  let subqs := prob.subquestions
  let mp : Json × Json :=
    match answer_parse_try ai_resp with
    | .ok x => x
    | .error _ => (.null, failureAnswers ai_resp subqs)
  let ansItems ← pyIterate mp.2
  let subresults0 ← align_go prob.id subqs 0 ansItems
  let subresults :=
    if subresults0.isEmpty ∧ ¬subqs.isEmpty then
      subqs.map fun sq =>
        ({ problem_id := prob.id, sub_id := sq.id, sub_text := sq.text,
           sub_images := sq.images, answer := .str "", reason := .str "" } : SubResult)
    else subresults0
  let final_problem_text ← finalText mp.1 prob_text
  .ok { problem_id := prob.id, problem_text := final_problem_text,
        num_subquestions := subqs.length, subanswers := subresults }

/-- The per-problem loop of line 441, with the response index threaded. -/
def answer_go (oracle : Nat → String) : Nat → List MatchedProblem →
    Except String (List ProbResult)
  | _, [] => .ok []
  | i, p :: rest => do
    let r ← answer_one (oracle i) p
    let tl ← answer_go oracle (i + 1) rest
    .ok (r :: tl)

/-- `answer_questions` (lines 432-547): one oracle call per problem;
`oracle i` is the response for the `i`-th problem. -/
def answer_questions (oracle : Nat → String) (problems : List MatchedProblem) :
    Except String (List ProbResult) :=
  answer_go oracle 0 problems

/- ---------------------------------------------------------------
   Complete pipeline (process_homework_complete, lines 549-566)
   --------------------------------------------------------------- -/

/-- The two shapes `process_homework_complete` returns: the
`\x7b"error", "step"\x7d` dict or the `\x7b"success", "total_elements",
"total_problems", "results"\x7d` dict. -/
inductive PipelineResult where
  | err : String → Nat → PipelineResult
  | success : Nat → Nat → List ProbResult → PipelineResult

/-- `process_homework_complete` (lines 549-566).  `elements` stands for the
value of `extract_page_elements` (empty on extraction failure), and the two
oracle responses are inputs; line 241's in-place sort is made explicit by
threading `sort_elements elements` into the later stages. -/
def process_homework_complete (structResp : String) (oracle : Nat → String)
    (elements : List PageElement) : Except String PipelineResult :=
  if elements.isEmpty then .ok (.err "PDF元素提取失败" 1)
  else do
    let sorted := sort_elements elements
    let problems_info ← identify_questions_structure structResp elements
    if !problems_info.truthy then .ok (.err "题目识别失败" 2)
    else do
      let problems ← match_questions_with_elements problems_info sorted
      if problems.isEmpty then .ok (.err "题目匹配失败" 3)
      else do
        let results ← answer_questions oracle problems
        .ok (.success elements.length problems.length results)

/- ---------------------------------------------------------------
   Proof infrastructure: stability of the element sort
   --------------------------------------------------------------- -/

lemma elemLe_of_key_eq {a b : PageElement} (h : elemKey a = elemKey b) : elemLe a b := by
  have h1 : a.page_num = b.page_num := congrArg Prod.fst h
  have h2 : a.center_y = b.center_y := congrArg Prod.snd h
  exact Or.inr ⟨h1, le_of_eq h2⟩

lemma filter_orderedInsert_elem (p : PageElement → Bool) (a : PageElement)
    (h : p a = true → ∀ b, p b = true → elemLe a b) (l : List PageElement) :
    (l.orderedInsert elemLe a).filter p =
      if p a then a :: l.filter p else l.filter p := by
  induction l with
  | nil => simp [List.orderedInsert, List.filter_cons]
  | cons b t ih =>
    rw [List.orderedInsert]
    by_cases hab : elemLe a b
    · rw [if_pos hab, List.filter_cons, List.filter_cons]
    · rw [if_neg hab, List.filter_cons, ih, List.filter_cons]
      by_cases hpa : p a = true
      · have hpb : p b = false := by
          cases hb : p b with
          | false => rfl
          | true => exact absurd (h hpa b hb) hab
        simp [hpa, hpb]
      · have hpa' : p a = false := Bool.eq_false_iff.mpr fun hx => hpa hx
        simp [hpa']

lemma filter_insertionSort_elem (p : PageElement → Bool)
    (h : ∀ a, p a = true → ∀ b, p b = true → elemLe a b) (l : List PageElement) :
    (l.insertionSort elemLe).filter p = l.filter p := by
  induction l with
  | nil => rfl
  | cons a t ih =>
    rw [List.insertionSort, filter_orderedInsert_elem p a (h a), ih, List.filter_cons]

/-- Claim C3: Element Ordering (line 241) sorts ascending by the key
`(page_num, center_y)`, is stable (each key class keeps its original
order, expressed by commutation with `filter` on key equality), is a
permutation of its input, and is idempotent. -/
theorem C3_element_ordering (l : List PageElement) :
    List.Sorted elemLe (sort_elements l) ∧
    List.Perm (sort_elements l) l ∧
    sort_elements (sort_elements l) = sort_elements l ∧
    ∀ k : Int × Rat,
      (sort_elements l).filter (fun e => decide (elemKey e = k)) =
        l.filter (fun e => decide (elemKey e = k)) := by
  refine ⟨List.sorted_insertionSort elemLe l, List.perm_insertionSort elemLe l, ?_, ?_⟩
  · exact (List.sorted_insertionSort elemLe l).insertionSort_eq
  · intro k
    apply filter_insertionSort_elem
    intro a ha b hb
    exact elemLe_of_key_eq ((of_decide_eq_true ha).trans (of_decide_eq_true hb).symm)

/- ---------------------------------------------------------------
   Proof infrastructure: the first-brace-to-last-brace slice
   --------------------------------------------------------------- -/

lemma findIdxChars_append (c : Char) (pre rest : List Char) (h : c ∉ pre) :
    findIdxChars c (pre ++ c :: rest) = some pre.length := by
  induction pre with
  | nil => simp [findIdxChars]
  | cons d t ih =>
    have hd : (d == c) = false := by
      refine beq_eq_false_iff_ne.mpr fun hdc => ?_
      exact h (by rw [hdc]; exact List.mem_cons_self c t)
    show findIdxChars c (d :: (t ++ c :: rest)) = some (d :: t).length
    rw [findIdxChars]
    simp only [hd, Bool.false_eq_true, if_false]
    rw [ih fun hc => h (List.mem_cons_of_mem d hc)]
    simp

lemma pySliceList_nat (l : List Char) (a b : Nat) (ha : a ≤ l.length) (hb : b ≤ l.length) :
    pySliceList l (a : Int) (b : Int) = (l.take b).drop a := by
  unfold pySliceList
  have h1 : ¬((a : Int) < 0) := by omega
  have h2 : ¬((b : Int) < 0) := by omega
  rw [if_neg h1, if_neg h2,
    min_eq_left (show (a : Int) ≤ (l.length : Int) by exact_mod_cast ha),
    min_eq_left (show (b : Int) ≤ (l.length : Int) by exact_mod_cast hb)]
  simp

lemma stripChars_braced (mid : List Char) :
    stripChars (lbrace :: (mid ++ [rbrace])) = lbrace :: (mid ++ [rbrace]) := by
  have hdw : ∀ (a : Char) (l : List Char), wsChar a = false →
      List.dropWhile wsChar (a :: l) = a :: l := by
    intro a l h
    simp [List.dropWhile, h]
  unfold stripChars
  rw [hdw lbrace _ (by decide),
    show (lbrace :: (mid ++ [rbrace])).reverse = rbrace :: (mid.reverse ++ [lbrace]) by simp,
    hdw rbrace _ (by decide)]
  simp

/-- The brace-slice characterization used by C4: with no fence marker, the
selection is exactly the segment from the first `\x7b` to the last `\x7d`. -/
lemma extract_json_str_braces (s : String) (pre mid post : List Char)
    (hm : pyContains s "```json" = false)
    (hs : s.data = pre ++ (lbrace :: (mid ++ (rbrace :: post))))
    (hpre : lbrace ∉ pre) (hpost : rbrace ∉ post) :
    extract_json_str s = String.mk (lbrace :: (mid ++ [rbrace])) := by
  unfold extract_json_str
  rw [if_neg (by simp [hm])]
  have hlen : s.data.length = pre.length + mid.length + post.length + 2 := by
    rw [hs]; simp [List.length_append]; ring
  have hfind : pyFind s lbrace = (pre.length : Int) := by
    unfold pyFind
    rw [hs, findIdxChars_append lbrace pre (mid ++ (rbrace :: post)) hpre]
  have hrev : s.data.reverse =
      post.reverse ++ (rbrace :: (mid.reverse ++ (lbrace :: pre.reverse))) := by
    rw [hs]; simp
  have hrfind : pyRfind s rbrace = ((pre.length + mid.length + 1 : Nat) : Int) := by
    unfold pyRfind
    rw [hrev, findIdxChars_append rbrace post.reverse (mid.reverse ++ (lbrace :: pre.reverse))
        (by simpa using hpost), hlen, List.length_reverse]
    push_cast
    ring
  rw [hfind, hrfind]
  unfold pySlice
  have hcast : ((pre.length + mid.length + 1 : Nat) : Int) + 1 =
      ((pre.length + mid.length + 2 : Nat) : Int) := by push_cast; ring
  rw [hcast, pySliceList_nat s.data _ _ (by omega) (by omega)]
  rw [hs]
  have hsplit : pre ++ (lbrace :: (mid ++ (rbrace :: post))) =
      pre ++ ((lbrace :: (mid ++ [rbrace])) ++ post) := by simp
  rw [hsplit]
  have hstep1 : (pre ++ ((lbrace :: (mid ++ [rbrace])) ++ post)).take
      (pre.length + mid.length + 2) = pre ++ (lbrace :: (mid ++ [rbrace])) := by
    have h2 : pre.length + mid.length + 2 = pre.length + (mid.length + 2) := by ring
    rw [h2, List.take_append]
    have h3 : mid.length + 2 = (lbrace :: (mid ++ [rbrace])).length := by simp
    rw [h3, List.take_left]
  rw [hstep1, List.drop_left]
  unfold pyStrip
  rw [show (String.mk (lbrace :: (mid ++ [rbrace]))).data = lbrace :: (mid ++ [rbrace]) from rfl,
    stripChars_braced]

/-- Claim C4: Resilient JSON Extraction uses the contents of a fenced
```json block when present (spec example), otherwise selects the substring
from the first `\x7b` to the last `\x7d` inclusive (stated for every
response whose character list splits as `pre ++ \x7b :: mid ++ \x7d :: post`
with no earlier `\x7b` and no later `\x7d`); for a response holding two
separate JSON objects the selection spans both objects, fails `json.loads`,
and Structure Inference takes its parse-failure fallback instead of
returning either object. -/
theorem C4_resilient_json_extraction :
    (extract_json_str "Sure, here:\n```json\n\x7b\"a\":1\x7d\n```\nThanks" = "\x7b\"a\":1\x7d") ∧
    (∀ (s : String) (pre mid post : List Char),
      pyContains s "```json" = false →
      s.data = pre ++ (lbrace :: (mid ++ (rbrace :: post))) →
      lbrace ∉ pre → rbrace ∉ post →
      extract_json_str s = String.mk (lbrace :: (mid ++ [rbrace]))) ∧
    (extract_json_str "blah \x7b\"a\":1\x7d blah \x7b\"b\":2\x7d" =
      "\x7b\"a\":1\x7d blah \x7b\"b\":2\x7d") ∧
    (json_loads "\x7b\"a\":1\x7d blah \x7b\"b\":2\x7d" = none) ∧
    (identify_try "blah \x7b\"a\":1\x7d blah \x7b\"b\":2\x7d" = .error "json.JSONDecodeError") ∧
    (identify_questions_structure "blah \x7b\"a\":1\x7d blah \x7b\"b\":2\x7d"
        [⟨.text, "1. hi", 0, 0, 10, 20, 1⟩] = .ok (.arr [probJson "1" [fragJson "1" "1. hi"]])) := by
  refine ⟨by with_unfolding_all rfl, extract_json_str_braces, by with_unfolding_all rfl,
    by with_unfolding_all rfl, by with_unfolding_all rfl, by with_unfolding_all rfl⟩

/-- Witness for C4: the universal branch applied to the concrete response
`"x\x7by\x7dz"`. -/
theorem C4_resilient_json_extraction_witness :
    pyContains "x\x7by\x7dz" "```json" = false ∧
    "x\x7by\x7dz".data = ['x'] ++ (lbrace :: (['y'] ++ (rbrace :: ['z']))) ∧
    lbrace ∉ ['x'] ∧ rbrace ∉ ['z'] ∧
    extract_json_str "x\x7by\x7dz" = String.mk (lbrace :: (['y'] ++ [rbrace])) := by
  refine ⟨by with_unfolding_all rfl, by with_unfolding_all rfl, by decide, by decide, ?_⟩
  exact C4_resilient_json_extraction.2.1 "x\x7by\x7dz" ['x'] ['y'] ['z']
    (by with_unfolding_all rfl) (by with_unfolding_all rfl) (by decide) (by decide)

/- ---------------------------------------------------------------
   Proof infrastructure: prefix grouping
   --------------------------------------------------------------- -/

/-- Total field projection (statement helper). -/
def objField (j : Json) (k : String) : Json :=
  match j with
  | .obj kvs => (jLookup kvs k).getD .null
  | _ => .null

/-- The id value Python reads with `q.get("id", "")` (statement helper). -/
def qidOf (j : Json) : Json :=
  match j with
  | .obj kvs => (jLookup kvs "id").getD (.str "")
  | _ => .str ""

/-- The subquestion ids of a problem dict (statement helper). -/
def subIdsOf (p : Json) : List Json :=
  match objField p "subquestions" with
  | .arr xs => xs.map fun s => objField s "id"
  | _ => []

def isObjJ : Json → Bool
  | .obj _ => true
  | _ => false

/-- The subquestion dict `mkSubJson` produces for a dict input. -/
def subJsonOf (q : Json) : Json :=
  match q with
  | .obj kvs =>
    .obj [("id", (jLookup kvs "id").getD (.str "")),
          ("text", (jLookup kvs "text").getD (.str "")),
          ("related_elements", (jLookup kvs "related_elements").getD (.arr [])),
          ("pages", (jLookup kvs "pages").getD (.arr []))]
  | _ => .null

lemma mkSubJson_obj (kvs : List (String × Json)) :
    mkSubJson (.obj kvs) = .ok (subJsonOf (.obj kvs)) := rfl

lemma objField_subJsonOf_id (q : Json) (h : isObjJ q = true) :
    objField (subJsonOf q) "id" = qidOf q := by
  cases q <;> simp_all [isObjJ]
  rfl

lemma subIdsOf_probJson (pid : String) (subs : List Json) :
    subIdsOf (probJson pid subs) = subs.map fun s => objField s "id" := rfl

lemma objField_probJson_id (pid : String) (subs : List Json) :
    objField (probJson pid subs) "id" = .str pid := rfl

lemma group_go_spec (qs : List Json) (pid : String) (subs : List Json)
    (hq : ∀ q ∈ qs, isObjJ q = true)
    (hsubs : ∀ s ∈ subs, prefix_of_qid (objField s "id") = pid) :
    ∃ gs : List (String × List Json),
      group_go pid subs qs = .ok gs ∧
      (gs.map Prod.fst).head? = some pid ∧
      List.Chain' (fun a b => a ≠ b) (gs.map Prod.fst) ∧
      gs.flatMap Prod.snd = subs ++ qs.map subJsonOf ∧
      ∀ g ∈ gs, ∀ s ∈ g.2, prefix_of_qid (objField s "id") = g.1 := by
  induction qs generalizing pid subs with
  | nil =>
    refine ⟨[(pid, subs)], rfl, rfl, by simp, by simp, ?_⟩
    intro g hg s hs
    rcases List.mem_singleton.mp hg with rfl
    exact hsubs s hs
  | cons q rest ih =>
    obtain ⟨kvs, rfl⟩ : ∃ kvs, q = .obj kvs := by
      have := hq q (List.mem_cons_self q rest)
      cases q <;> simp_all [isObjJ]
    have hrest : ∀ r ∈ rest, isObjJ r = true := fun r hr => hq r (List.mem_cons_of_mem _ hr)
    have hunfold : group_go pid subs (Json.obj kvs :: rest) =
        (if prefix_of_qid ((jLookup kvs "id").getD (.str "")) = pid
         then group_go pid (subs ++ [subJsonOf (.obj kvs)]) rest
         else do
           let tail ← group_go (prefix_of_qid ((jLookup kvs "id").getD (.str "")))
             [subJsonOf (.obj kvs)] rest
           Except.ok ((pid, subs) :: tail)) := rfl
    by_cases hp : prefix_of_qid ((jLookup kvs "id").getD (.str "")) = pid
    · have hside : ∀ s ∈ subs ++ [subJsonOf (.obj kvs)],
          prefix_of_qid (objField s "id") = pid := by
        intro s hs
        rcases List.mem_append.mp hs with h | h
        · exact hsubs s h
        · rcases List.mem_singleton.mp h with rfl
          rw [objField_subJsonOf_id (Json.obj kvs) rfl]
          exact hp
      obtain ⟨gs, hgs, hhead, hchain, hflat, hpre⟩ :=
        ih pid (subs ++ [subJsonOf (.obj kvs)]) hrest hside
      refine ⟨gs, ?_, hhead, hchain, ?_, hpre⟩
      · rw [hunfold, if_pos hp, hgs]
      · rw [hflat]
        simp
    · have hside : ∀ s ∈ [subJsonOf (.obj kvs)],
          prefix_of_qid (objField s "id") =
            prefix_of_qid ((jLookup kvs "id").getD (.str "")) := by
        intro s hs
        rcases List.mem_singleton.mp hs with rfl
        rw [objField_subJsonOf_id (Json.obj kvs) rfl]
        rfl
      obtain ⟨gs, hgs, hhead, hchain, hflat, hpre⟩ :=
        ih (prefix_of_qid ((jLookup kvs "id").getD (.str ""))) [subJsonOf (.obj kvs)] hrest hside
      refine ⟨(pid, subs) :: gs, ?_, rfl, ?_, ?_, ?_⟩
      · rw [hunfold, if_neg hp, hgs]
        rfl
      · rw [List.map_cons]
        refine List.chain'_cons'.mpr ⟨?_, hchain⟩
        intro b hb
        rw [hhead] at hb
        cases hb
        exact fun he => hp he.symm
      · rw [List.flatMap_cons, hflat]
        simp
      · intro g hg s hs
        rcases List.mem_cons.mp hg with rfl | hg2
        · exact hsubs s hs
        · exact hpre g hg2 s hs

lemma group_spec (qs : List Json) (hq : ∀ q ∈ qs, isObjJ q = true) :
    ∃ probs : List Json,
      group_questions_by_pfx qs = .ok probs ∧
      probs.flatMap subIdsOf = qs.map qidOf ∧
      (∀ p ∈ probs, ∀ sid ∈ subIdsOf p, Json.str (prefix_of_qid sid) = objField p "id") ∧
      List.Chain' (fun a b => objField a "id" ≠ objField b "id") probs := by
  cases qs with
  | nil => exact ⟨[], rfl, rfl, by simp, by simp⟩
  | cons q rest =>
    obtain ⟨kvs, rfl⟩ : ∃ kvs, q = .obj kvs := by
      have := hq q (List.mem_cons_self q rest)
      cases q <;> simp_all [isObjJ]
    have hrest : ∀ r ∈ rest, isObjJ r = true := fun r hr => hq r (List.mem_cons_of_mem _ hr)
    have hside : ∀ s ∈ [subJsonOf (.obj kvs)],
        prefix_of_qid (objField s "id") =
          prefix_of_qid ((jLookup kvs "id").getD (.str "")) := by
      intro s hs
      rcases List.mem_singleton.mp hs with rfl
      rw [objField_subJsonOf_id (Json.obj kvs) rfl]
      rfl
    obtain ⟨gs, hgs, hhead, hchain, hflat, hpre⟩ :=
      group_go_spec rest (prefix_of_qid ((jLookup kvs "id").getD (.str "")))
        [subJsonOf (.obj kvs)] hrest hside
    refine ⟨gs.map fun g => probJson g.1 g.2, ?_, ?_, ?_, ?_⟩
    · have hunfold : group_questions_by_pfx (Json.obj kvs :: rest) =
          (do
            let groups ← group_go (prefix_of_qid ((jLookup kvs "id").getD (.str "")))
              [subJsonOf (.obj kvs)] rest
            Except.ok (groups.map fun g => probJson g.1 g.2)) := rfl
      rw [hunfold, hgs]
      rfl
    · calc (gs.map fun g => probJson g.1 g.2).flatMap subIdsOf
          = gs.flatMap fun g => subIdsOf (probJson g.1 g.2) := by
            rw [List.flatMap_map]
        _ = gs.flatMap fun g => g.2.map fun s => objField s "id" := by
            simp only [subIdsOf_probJson]
        _ = (gs.flatMap Prod.snd).map fun s => objField s "id" := by
            rw [List.map_flatMap]
        _ = ((Json.obj kvs :: rest).map subJsonOf).map fun s => objField s "id" := by
            rw [hflat]
            rfl
        _ = (Json.obj kvs :: rest).map qidOf := by
            rw [List.map_map]
            refine List.map_congr_left ?_
            intro x hx
            exact objField_subJsonOf_id x (hq x hx)
    · intro p hp sid hsid
      obtain ⟨g, hg, rfl⟩ := List.mem_map.mp hp
      rw [subIdsOf_probJson] at hsid
      obtain ⟨s, hs, rfl⟩ := List.mem_map.mp hsid
      rw [objField_probJson_id, hpre g hg s hs]
    · have hch2 : List.Chain' (fun g h : String × List Json => g.1 ≠ h.1) gs :=
        (List.chain'_map Prod.fst).mp hchain
      rw [List.chain'_map]
      refine hch2.imp ?_
      intro a b hne
      rw [objField_probJson_id, objField_probJson_id]
      intro he
      exact hne (Json.str.inj he)

/-- Claim C5: Prefix Grouping merges consecutive fragments sharing the
same leading digit run of their id into one Problem (a digit-free id is
its own prefix), starting a new Problem exactly when the prefix changes:
the grouped output flattens back to the input ids in order, every
subquestion id has its Problem's id as leading-digit prefix, and adjacent
Problems have distinct ids (so a group boundary stands exactly at each
prefix change); the spec's ["1","1a","2","2b","1c"] example yields the
three Problems "1", "2", "1". -/
theorem C5_prefix_grouping :
    ((group_questions_by_pfx
        [fragJson "1" "", fragJson "1a" "", fragJson "2" "",
         fragJson "2b" "", fragJson "1c" ""]).map
      (fun ps => ps.map fun p => (objField p "id", subIdsOf p)) =
      .ok [(.str "1", [.str "1", .str "1a"]), (.str "2", [.str "2", .str "2b"]),
           (.str "1", [.str "1c"])]) ∧
    (∀ qs : List Json, (∀ q ∈ qs, isObjJ q = true) →
      ∃ probs, group_questions_by_pfx qs = .ok probs ∧
        probs.flatMap subIdsOf = qs.map qidOf ∧
        (∀ p ∈ probs, ∀ sid ∈ subIdsOf p, Json.str (prefix_of_qid sid) = objField p "id") ∧
        List.Chain' (fun a b => objField a "id" ≠ objField b "id") probs) :=
  ⟨by with_unfolding_all rfl, group_spec⟩

/-- Witness for C5: the universal branch applied to two concrete
fragments. -/
theorem C5_prefix_grouping_witness :
    (∀ q ∈ [fragJson "1" "x", fragJson "2a" "y"], isObjJ q = true) ∧
    ∃ probs, group_questions_by_pfx [fragJson "1" "x", fragJson "2a" "y"] = .ok probs ∧
      probs.flatMap subIdsOf = [fragJson "1" "x", fragJson "2a" "y"].map qidOf ∧
      (∀ p ∈ probs, ∀ sid ∈ subIdsOf p, Json.str (prefix_of_qid sid) = objField p "id") ∧
      List.Chain' (fun a b => objField a "id" ≠ objField b "id") probs := by
  have hq : ∀ q ∈ [fragJson "1" "x", fragJson "2a" "y"], isObjJ q = true := by
    intro q hqm
    rcases List.mem_cons.mp hqm with rfl | h2
    · rfl
    · rcases List.mem_singleton.mp h2 with rfl
      rfl
  exact ⟨hq, C5_prefix_grouping.2 _ hq⟩

/- ---------------------------------------------------------------
   Proof infrastructure: smart inference
   --------------------------------------------------------------- -/

/-- Modelled from the claim's words (C6), for comparison with the source:
candidates are the elements whose page lies in `\x7bp-1, p, p+1\x7d` for a
declared page `p`; the selection keeps every image-kind candidate plus
exactly those text-kind candidates whose content contains the
subquestion's non-empty text; when empty, the first three candidates. -/
def smart_infer_claimed (text : String) (pages : List Int) (elements : List PageElement) :
    List PageElement :=
  let cand := elements.filter fun e =>
    pages.any fun p => p - 1 == e.page_num || p == e.page_num || p + 1 == e.page_num
  let sel := cand.filter fun e =>
    (e.type == .image || e.type == .page_image) ||
    (e.type == .text && (!(text == "") && pyContains e.content text))
  if sel.isEmpty then cand.take 3 else sel

/-- The amended selection: as the claim says, but a text-kind candidate
additionally requires the subquestion text to be non-whitespace
(`text.strip()` truthy), matching line 426. -/
def smart_infer_amended (text : String) (pages : List Int) (elements : List PageElement) :
    List PageElement :=
  let cand := elements.filter fun e =>
    pages.any fun p => p - 1 == e.page_num || p == e.page_num || p + 1 == e.page_num
  let sel := cand.filter fun e =>
    (e.type == .image || e.type == .page_image) ||
    (e.type == .text && (!(text == "") && (!(pyStrip text == "") && pyContains e.content text)))
  if sel.isEmpty then cand.take 3 else sel

lemma pageWindow_hashable_ok (t : Json) (h : hashableJ t = true) :
    ∃ w, pageWindow t = .ok w := by
  cases t
  case str s =>
    cases hp : pyIntOfString s with
    | some n => exact ⟨_, by rw [pageWindow, hp]⟩
    | none => exact ⟨_, by rw [pageWindow, hp]⟩
  case arr xs => exact absurd h (by simp [hashableJ])
  case obj kvs => exact absurd h (by simp [hashableJ])
  all_goals exact ⟨_, rfl⟩

lemma pageWindow_int_mapM (pages : List Int) :
    (pages.map Json.int).mapM pageWindow =
      .ok (pages.map fun p => [Json.int (p - 1), Json.int p, Json.int (p + 1)]) := by
  induction pages with
  | nil => rfl
  | cons p rest ih =>
    rw [List.map_cons, List.mapM_cons,
      show pageWindow (Json.int p) = Except.ok [Json.int (p - 1), Json.int p, Json.int (p + 1)]
        from rfl, ih]
    rfl

lemma pageInRange_int_windows (n : Int) (pages : List Int) :
    pageInRange n
      ((pages.map fun p => [Json.int (p - 1), Json.int p, Json.int (p + 1)]).flatten) =
      pages.any fun p => p - 1 == n || p == n || p + 1 == n := by
  induction pages with
  | nil => rfl
  | cons p rest ih =>
    simp only [List.map_cons, List.flatten_cons, pageInRange, List.any_append, List.any_cons,
      List.any_nil]
    simp only [pageInRange] at ih
    rw [ih]
    simp [Bool.or_assoc]

lemma textCondition_str (text : String) (c : String) :
    textCondition (.str text) c =
      .ok (!(text == "") && (!(pyStrip text == "") && pyContains c text)) := by
  by_cases h : text = ""
  · subst h
    rfl
  · have ht : Json.truthy (.str text) = true := by
      simp [Json.truthy, h]
    have hb : (text == "") = false := by
      simp [h]
    simp [textCondition, ht, hb, bne]

lemma candFilter_str (text : String) (l : List PageElement) :
    candFilter (.str text) l = .ok (l.filter fun e =>
      (e.type == .image || e.type == .page_image) ||
      (e.type == .text && (!(text == "") && (!(pyStrip text == "") && pyContains e.content text)))) := by
  induction l with
  | nil => rfl
  | cons e rest ih =>
    cases he : e.type with
    | text =>
      have hcf : candFilter (Json.str text) (e :: rest) = (do
          let keep ← textCondition (Json.str text) e.content
          let tl ← candFilter (Json.str text) rest
          Except.ok (if keep then e :: tl else tl)) := by
        simp only [candFilter, he]
      rw [hcf, textCondition_str, ih, List.filter_cons]
      cases hc : (!(text == "") && (!(pyStrip text == "") && pyContains e.content text)) with
      | false =>
        simp only [he, hc]
        rfl
      | true =>
        simp only [he, hc]
        rfl
    | image =>
      have hcf : candFilter (Json.str text) (e :: rest) = (do
          let tl ← candFilter (Json.str text) rest
          Except.ok (e :: tl)) := by
        simp only [candFilter, he]
      rw [hcf, ih, List.filter_cons]
      simp only [he]
      rfl
    | page_image =>
      have hcf : candFilter (Json.str text) (e :: rest) = (do
          let tl ← candFilter (Json.str text) rest
          Except.ok (e :: tl)) := by
        simp only [candFilter, he]
      rw [hcf, ih, List.filter_cons]
      simp only [he]
      rfl

/-- Claim C6, amended: for a subquestion dict whose `text` is the string
`text` and whose `pages` are the integers `pages`, smart inference selects,
from the candidates within one page of a declared page, every image-kind
element plus exactly those text-kind elements whose content contains the
subquestion's non-empty AND non-whitespace text as a literal substring
(the claim said only "non-empty"; line 426 also requires
`question_text.strip()` to be truthy), falling back to the first three
candidates when this selection is empty. -/
theorem C6_smart_inference (kvs : List (String × Json)) (text : String) (pages : List Int)
    (elements : List PageElement)
    (htext : jLookup kvs "text" = some (.str text))
    (hpages : jLookup kvs "pages" = some (.arr (pages.map Json.int))) :
    smart_infer_elements (.obj kvs) elements = .ok (smart_infer_amended text pages elements) := by
  have ht : pyGetD (Json.obj kvs) "text" (Json.str "") = .ok (Json.str text) := by
    show Except.ok ((jLookup kvs "text").getD (Json.str "")) = _
    rw [htext]
    rfl
  have hp : pyGetD (Json.obj kvs) "pages" (Json.arr [Json.int 1]) =
      .ok (Json.arr (pages.map Json.int)) := by
    show Except.ok ((jLookup kvs "pages").getD (Json.arr [Json.int 1])) = _
    rw [hpages]
    rfl
  unfold smart_infer_elements
  rw [ht, exc_bind_ok, hp, exc_bind_ok,
    show pyIterate (Json.arr (pages.map Json.int)) = .ok (pages.map Json.int) from rfl,
    exc_bind_ok, pageWindow_int_mapM, exc_bind_ok]
  show (do
    let related ← candFilter (Json.str text)
      (elements.filter fun e : PageElement =>
        pageInRange e.page_num
          ((pages.map fun p => [Json.int (p - 1), Json.int p, Json.int (p + 1)]).flatten))
    Except.ok (if related.isEmpty
      then (elements.filter fun e : PageElement =>
        pageInRange e.page_num
          ((pages.map fun p => [Json.int (p - 1), Json.int p, Json.int (p + 1)]).flatten)).take 3
      else related)) = _
  have hfil : (elements.filter fun e : PageElement =>
      pageInRange e.page_num
        ((pages.map fun p => [Json.int (p - 1), Json.int p, Json.int (p + 1)]).flatten)) =
      elements.filter fun e : PageElement =>
        pages.any fun p => p - 1 == e.page_num || p == e.page_num || p + 1 == e.page_num :=
    List.filter_congr fun e _ => pageInRange_int_windows e.page_num pages
  rw [hfil, candFilter_str]
  rfl

/-- Counterexample for C6: a subquestion whose text is the single space
`" "` (non-empty, so the claim's selection keeps the matching text
element), among four page-1 text elements of which only the fourth
contains `" "`; the code's extra `strip()` test rejects every text
element and falls back to the first three candidates instead. -/
theorem C6_smart_inference_counterexample :
    smart_infer_elements (.obj [("text", .str " "), ("pages", .arr [.int 1])])
      [⟨.text, "a", 0, 0, 10, 20, 1⟩, ⟨.text, "b", 0, 0, 10, 20, 1⟩,
       ⟨.text, "c", 0, 0, 10, 20, 1⟩, ⟨.text, " x", 0, 0, 10, 20, 1⟩] =
      .ok [⟨.text, "a", 0, 0, 10, 20, 1⟩, ⟨.text, "b", 0, 0, 10, 20, 1⟩,
           ⟨.text, "c", 0, 0, 10, 20, 1⟩] ∧
    smart_infer_claimed " " [1]
      [⟨.text, "a", 0, 0, 10, 20, 1⟩, ⟨.text, "b", 0, 0, 10, 20, 1⟩,
       ⟨.text, "c", 0, 0, 10, 20, 1⟩, ⟨.text, " x", 0, 0, 10, 20, 1⟩] =
      [⟨.text, " x", 0, 0, 10, 20, 1⟩] ∧
    ([(⟨.text, "a", 0, 0, 10, 20, 1⟩ : PageElement), ⟨.text, "b", 0, 0, 10, 20, 1⟩,
      ⟨.text, "c", 0, 0, 10, 20, 1⟩] : List PageElement) ≠
      [⟨.text, " x", 0, 0, 10, 20, 1⟩] := by
  refine ⟨by with_unfolding_all rfl, by with_unfolding_all rfl, ?_⟩
  intro h
  exact absurd (congrArg List.length h) (by decide)

/-- Witness for C6: the amended theorem applied to a concrete dict. -/
theorem C6_smart_inference_witness :
    jLookup [("text", Json.str "q1"), ("pages", Json.arr [Json.int 1])] "text" =
      some (.str "q1") ∧
    jLookup [("text", Json.str "q1"), ("pages", Json.arr [Json.int 1])] "pages" =
      some (.arr ([(1 : Int)].map Json.int)) ∧
    smart_infer_elements (.obj [("text", Json.str "q1"), ("pages", Json.arr [Json.int 1])])
      [⟨.text, "see q1 here", 0, 0, 10, 20, 1⟩, ⟨.image, "im", 0, 0, 4, 4, 2⟩] =
      .ok (smart_infer_amended "q1" [1]
        [⟨.text, "see q1 here", 0, 0, 10, 20, 1⟩, ⟨.image, "im", 0, 0, 4, 4, 2⟩]) :=
  ⟨rfl, rfl, C6_smart_inference _ "q1" [1] _ rfl rfl⟩

lemma smart_infer_empty_window (kvs : List (String × Json)) (elements : List PageElement)
    (pages : List Int)
    (hpages : jLookup kvs "pages" = some (.arr (pages.map Json.int)))
    (hwin : ∀ e ∈ elements,
      (pages.any fun p => p - 1 == e.page_num || p == e.page_num || p + 1 == e.page_num) = false) :
    smart_infer_elements (.obj kvs) elements = .ok [] := by
  have hp : pyGetD (Json.obj kvs) "pages" (Json.arr [Json.int 1]) =
      .ok (Json.arr (pages.map Json.int)) := by
    show Except.ok ((jLookup kvs "pages").getD (Json.arr [Json.int 1])) = _
    rw [hpages]
    rfl
  unfold smart_infer_elements
  rw [show pyGetD (Json.obj kvs) "text" (Json.str "") =
      .ok ((jLookup kvs "text").getD (Json.str "")) from rfl,
    exc_bind_ok, hp, exc_bind_ok,
    show pyIterate (Json.arr (pages.map Json.int)) = .ok (pages.map Json.int) from rfl,
    exc_bind_ok, pageWindow_int_mapM, exc_bind_ok]
  show (do
    let related ← candFilter ((jLookup kvs "text").getD (Json.str ""))
      (elements.filter fun e : PageElement =>
        pageInRange e.page_num
          ((pages.map fun p => [Json.int (p - 1), Json.int p, Json.int (p + 1)]).flatten))
    Except.ok (if related.isEmpty
      then (elements.filter fun e : PageElement =>
        pageInRange e.page_num
          ((pages.map fun p => [Json.int (p - 1), Json.int p, Json.int (p + 1)]).flatten)).take 3
      else related)) = .ok []
  have hfil : (elements.filter fun e : PageElement =>
      pageInRange e.page_num
        ((pages.map fun p => [Json.int (p - 1), Json.int p, Json.int (p + 1)]).flatten)) = [] := by
    rw [List.filter_eq_nil_iff]
    intro e he
    rw [pageInRange_int_windows]
    simp [hwin e he]
  rw [hfil]
  rfl

/-- Claim C10: a subquestion with no declared element indices whose page
window contains no element at all resolves to the empty element list (the
first-three fallback of an empty candidate set is empty), so Element
Matching emits the Question with zero related elements and an empty image
sequence. -/
theorem C10_empty_window_empty_result (kvs : List (String × Json))
    (elements : List PageElement) (pages : List Int)
    (hre : jLookup kvs "related_elements" = some (.arr []))
    (hpages : jLookup kvs "pages" = some (.arr (pages.map Json.int)))
    (hwin : ∀ e ∈ elements,
      (pages.any fun p => p - 1 == e.page_num || p == e.page_num || p + 1 == e.page_num) = false) :
    ∃ q : Question, match_sub elements (.obj kvs) = .ok q ∧
      q.related_elements = [] ∧ q.images = [] := by
  have hre2 : (jLookup kvs "related_elements").getD (Json.arr []) = Json.arr [] := by
    rw [hre]
    rfl
  have hsm := smart_infer_empty_window kvs elements pages hpages hwin
  have hstep : match_sub elements (Json.obj kvs) =
      Except.bind (smart_infer_elements (Json.obj kvs) elements) (fun related =>
        Except.ok
          { id := (jLookup kvs "id").getD (Json.str ""),
            text := (jLookup kvs "text").getD (Json.str ""),
            images := (related.filter fun e =>
              e.type = .image ∨ e.type = .page_image).map PageElement.content,
            page_nums := if ((jLookup kvs "pages").getD (Json.arr [])).truthy
              then (jLookup kvs "pages").getD (Json.arr []) else Json.arr [],
            related_elements := related }) := by
    unfold match_sub
    rw [show pyGetD (Json.obj kvs) "related_elements" (Json.arr []) = Except.ok (Json.arr [])
      from by
        show Except.ok ((jLookup kvs "related_elements").getD (Json.arr [])) = _
        rw [hre2]]
    rfl
  refine ⟨{ id := (jLookup kvs "id").getD (Json.str ""),
            text := (jLookup kvs "text").getD (Json.str ""),
            images := [],
            page_nums := if ((jLookup kvs "pages").getD (Json.arr [])).truthy
              then (jLookup kvs "pages").getD (Json.arr []) else Json.arr [],
            related_elements := [] }, ?_, rfl, rfl⟩
  rw [hstep, hsm]
  rfl

/-- Witness for C10: a concrete subquestion on page 5 with only a page-1
element available. -/
theorem C10_empty_window_empty_result_witness :
    jLookup [("related_elements", Json.arr []), ("pages", Json.arr [Json.int 5])]
      "related_elements" = some (.arr []) ∧
    jLookup [("related_elements", Json.arr []), ("pages", Json.arr [Json.int 5])]
      "pages" = some (.arr ([(5 : Int)].map Json.int)) ∧
    ∃ q : Question,
      match_sub [⟨.text, "a", 0, 0, 10, 20, 1⟩]
        (.obj [("related_elements", Json.arr []), ("pages", Json.arr [Json.int 5])]) = .ok q ∧
      q.related_elements = [] ∧ q.images = [] := by
  refine ⟨rfl, rfl, ?_⟩
  exact C10_empty_window_empty_result _ _ [5] rfl rfl (by
    intro e he
    rcases List.mem_singleton.mp he with rfl
    decide)

/- ---------------------------------------------------------------
   Proof infrastructure: well-shaped oracle JSON and stage totality
   --------------------------------------------------------------- -/

lemma mapM_ok_of_forall {α β : Type} (f : α → Except String β) (l : List α)
    (h : ∀ x ∈ l, ∃ y, f x = .ok y) :
    ∃ rs, l.mapM f = .ok rs ∧ List.Forall₂ (fun x y => f x = .ok y) l rs := by
  induction l with
  | nil => exact ⟨[], rfl, List.Forall₂.nil⟩
  | cons a t ih =>
    obtain ⟨y, hy⟩ := h a (List.mem_cons_self a t)
    obtain ⟨rs, hrs, hfa⟩ := ih fun x hx => h x (List.mem_cons_of_mem a hx)
    refine ⟨y :: rs, ?_, List.Forall₂.cons hy hfa⟩
    rw [List.mapM_cons, hy, hrs]
    rfl

/-- A JSON value usable as an element index without raising. -/
def wsIdxArr : Json → Bool
  | .arr xs => xs.all fun x => match x with | .int _ => true | _ => false
  | _ => false

/-- Sufficient shape for a subquestion dict to pass Element Matching
without raising: integer indices, string text, and a pages list whose
tokens are hashable (a list or dict page token would make
`smart_infer_elements` raise `TypeError: unhashable`). -/
def wsSubJ : Json → Bool
  | .obj kvs =>
    wsIdxArr ((jLookup kvs "related_elements").getD (.arr [])) &&
    ((match (jLookup kvs "text").getD (.str "") with | .str _ => true | _ => false) &&
     (match (jLookup kvs "pages").getD (.arr [.int 1]) with
      | .arr ps => ps.all hashableJ
      | _ => false))
  | _ => false

/-- Sufficient shape for a problem dict. -/
def wsProbJ : Json → Bool
  | .obj kvs =>
    wsIdxArr ((jLookup kvs "related_elements").getD (.arr [])) &&
    (match (jLookup kvs "subquestions").getD (.arr []) with
     | .arr subs => subs.all wsSubJ
     | _ => false)
  | _ => false

/-- Sufficient shape for an inferred problems value. -/
def wsProblemsJ : Json → Bool
  | .arr ps => ps.all wsProbJ
  | _ => false

/-- The subquestion dicts of a problem dict (statement helper). -/
def subsOf (p : Json) : List Json :=
  match p with
  | .obj kvs =>
    match (jLookup kvs "subquestions").getD (.arr []) with
    | .arr xs => xs
    | _ => []
  | _ => []

lemma resolveIndices_ints (elements : List PageElement) (xs : List Json)
    (h : ∀ x ∈ xs, ∃ n : Int, x = .int n) :
    ∃ res, resolveIndices elements (.arr xs) = .ok res := by
  have h2 : ∀ x ∈ xs, ∃ y, idxSelect elements x = .ok y := by
    intro x hx
    obtain ⟨n, rfl⟩ := h x hx
    exact ⟨_, rfl⟩
  obtain ⟨opts, hopts, _⟩ := mapM_ok_of_forall (idxSelect elements) xs h2
  refine ⟨opts.filterMap id, ?_⟩
  unfold resolveIndices
  rw [show pyIterate (Json.arr xs) = .ok xs from rfl, exc_bind_ok, hopts, exc_bind_ok]

lemma smart_infer_ok (kvs : List (String × Json)) (elements : List PageElement)
    (text : String) (ps : List Json)
    (htext : (jLookup kvs "text").getD (.str "") = .str text)
    (hpages : (jLookup kvs "pages").getD (.arr [.int 1]) = .arr ps)
    (hhash : ∀ t ∈ ps, hashableJ t = true) :
    ∃ r, smart_infer_elements (.obj kvs) elements = .ok r := by
  obtain ⟨ws, hws, _⟩ :=
    mapM_ok_of_forall pageWindow ps fun t ht => pageWindow_hashable_ok t (hhash t ht)
  unfold smart_infer_elements
  rw [show pyGetD (Json.obj kvs) "text" (Json.str "") = .ok (Json.str text) from by
      show Except.ok ((jLookup kvs "text").getD (Json.str "")) = _
      rw [htext],
    exc_bind_ok,
    show pyGetD (Json.obj kvs) "pages" (Json.arr [Json.int 1]) = .ok (Json.arr ps) from by
      show Except.ok ((jLookup kvs "pages").getD (Json.arr [Json.int 1])) = _
      rw [hpages],
    exc_bind_ok,
    show pyIterate (Json.arr ps) = .ok ps from rfl, exc_bind_ok, hws, exc_bind_ok]
  simp only [candFilter_str, exc_bind_ok]
  exact ⟨_, rfl⟩

lemma match_sub_ok (elements : List PageElement) (s : Json) (hws : wsSubJ s = true) :
    ∃ q, match_sub elements s = .ok q := by
  obtain ⟨kvs, rfl⟩ : ∃ kvs, s = .obj kvs := by
    cases s <;> simp_all [wsSubJ]
  rw [wsSubJ] at hws
  simp only [Bool.and_eq_true] at hws
  obtain ⟨hidx, htx, hpg⟩ := hws
  obtain ⟨xs, hxs, hints⟩ : ∃ xs, (jLookup kvs "related_elements").getD (.arr []) = .arr xs ∧
      ∀ x ∈ xs, ∃ n : Int, x = .int n := by
    cases hre : (jLookup kvs "related_elements").getD (.arr []) <;>
      rw [hre] at hidx <;> simp only [wsIdxArr] at hidx
    case arr ys =>
      refine ⟨ys, rfl, ?_⟩
      intro x hx
      have hx2 := List.all_eq_true.mp hidx x hx
      cases x <;> simp_all
    all_goals exact absurd hidx (by decide)
  obtain ⟨text, htext⟩ : ∃ text, (jLookup kvs "text").getD (.str "") = .str text := by
    cases h : (jLookup kvs "text").getD (.str "") <;> rw [h] at htx <;> simp_all
  obtain ⟨ps, hps, hhash⟩ : ∃ ps, (jLookup kvs "pages").getD (.arr [.int 1]) = .arr ps ∧
      ∀ t ∈ ps, hashableJ t = true := by
    cases h : (jLookup kvs "pages").getD (.arr [.int 1]) <;> rw [h] at hpg <;>
      simp only at hpg
    case arr ys => exact ⟨ys, rfl, List.all_eq_true.mp hpg⟩
    all_goals exact absurd hpg (by decide)
  obtain ⟨r0, hr0⟩ := resolveIndices_ints elements xs hints
  unfold match_sub
  rw [show pyGetD (Json.obj kvs) "related_elements" (Json.arr []) = .ok (Json.arr xs) from by
      show Except.ok ((jLookup kvs "related_elements").getD (Json.arr [])) = _
      rw [hxs],
    exc_bind_ok, hr0, exc_bind_ok]
  by_cases hre : r0.isEmpty = true
  · rw [if_pos hre]
    obtain ⟨r1, hr1⟩ := smart_infer_ok kvs elements text ps htext hps hhash
    rw [hr1, exc_bind_ok]
    exact ⟨_, rfl⟩
  · rw [if_neg hre, exc_bind_ok]
    exact ⟨_, rfl⟩

lemma match_problem_ok (elements : List PageElement) (i : Nat) (p : Json)
    (h : wsProbJ p = true) :
    ∃ mp, match_problem elements i p = .ok mp ∧
      mp.subquestions.length = (subsOf p).length := by
  obtain ⟨kvs, rfl⟩ : ∃ kvs, p = .obj kvs := by
    cases p <;> simp_all [wsProbJ]
  rw [wsProbJ] at h
  simp only [Bool.and_eq_true] at h
  obtain ⟨hidx, hsubs⟩ := h
  obtain ⟨xs, hxs, hints⟩ : ∃ xs,
      (jLookup kvs "related_elements").getD (.arr []) = .arr xs ∧
      ∀ x ∈ xs, ∃ n : Int, x = .int n := by
    cases hre : (jLookup kvs "related_elements").getD (.arr []) <;>
      rw [hre] at hidx <;> simp only [wsIdxArr] at hidx
    case arr ys =>
      refine ⟨ys, rfl, ?_⟩
      intro x hx
      have hx2 := List.all_eq_true.mp hidx x hx
      cases x <;> simp_all
    all_goals exact absurd hidx (by decide)
  obtain ⟨subs, hsubsEq, hall⟩ : ∃ subs,
      (jLookup kvs "subquestions").getD (.arr []) = .arr subs ∧
      ∀ s ∈ subs, wsSubJ s = true := by
    cases hv : (jLookup kvs "subquestions").getD (.arr []) <;> rw [hv] at hsubs <;>
      simp only at hsubs
    case arr ys =>
      exact ⟨ys, rfl, List.all_eq_true.mp hsubs⟩
    all_goals exact absurd hsubs (by decide)
  obtain ⟨r0, hr0⟩ := resolveIndices_ints elements xs hints
  obtain ⟨qs, hqs, hfa⟩ :=
    mapM_ok_of_forall (match_sub elements) subs fun s hs => match_sub_ok elements s (hall s hs)
  unfold match_problem
  simp only [pyGetD, exc_bind_ok]
  rw [hxs, hr0, exc_bind_ok, hsubsEq,
    show pyIterate (Json.arr subs) = .ok subs from rfl, exc_bind_ok, hqs, exc_bind_ok]
  refine ⟨_, rfl, ?_⟩
  show qs.length = (subsOf (Json.obj kvs)).length
  rw [show subsOf (Json.obj kvs) =
      (match (jLookup kvs "subquestions").getD (Json.arr []) with
       | Json.arr xs => xs
       | _ => []) from rfl, hsubsEq]
  exact hfa.length_eq.symm

lemma match_problems_go_ok (elements : List PageElement) :
    ∀ (i : Nat) (ps : List Json), (∀ p ∈ ps, wsProbJ p = true) →
    ∃ out, match_problems_go elements i ps = .ok out ∧
      List.Forall₂ (fun p mp => mp.subquestions.length = (subsOf p).length) ps out := by
  intro i ps
  induction ps generalizing i with
  | nil => exact fun _ => ⟨[], rfl, List.Forall₂.nil⟩
  | cons p rest ih =>
    intro h
    obtain ⟨mp, hmp, hlen⟩ := match_problem_ok elements i p (h p (List.mem_cons_self p rest))
    obtain ⟨out, hout, hfa⟩ := ih (i + 1) fun r hr => h r (List.mem_cons_of_mem p hr)
    refine ⟨mp :: out, ?_, List.Forall₂.cons hlen hfa⟩
    simp only [match_problems_go]
    rw [hmp, exc_bind_ok, hout, exc_bind_ok]

/-- Claim C7, amended: after Element Matching, one Problem object is
emitted per well-shaped input problem, each preserving its input
subquestion count — in particular a problem with an empty subquestion
list IS emitted (with zero subquestions) and flows on to Answer
Aggregation; the code has no filter dropping subquestion-less problems. -/
theorem C7_matching_emits_all (ps : List Json) (elements : List PageElement)
    (h : ∀ p ∈ ps, wsProbJ p = true) :
    ∃ out, match_questions_with_elements (.arr ps) elements = .ok out ∧
      out.length = ps.length ∧
      List.Forall₂ (fun p mp => mp.subquestions.length = (subsOf p).length) ps out := by
  obtain ⟨out, hout, hfa⟩ := match_problems_go_ok elements 0 ps h
  refine ⟨out, ?_, hfa.length_eq.symm, hfa⟩
  unfold match_questions_with_elements
  rw [show pyIterate (Json.arr ps) = .ok ps from rfl, exc_bind_ok, hout]

/-- Counterexample for C7: a problem whose `subquestions` list is empty is
still emitted by Element Matching (with zero subquestions) and is handed
to Answer Aggregation, which produces a result for it — refuting the
claim that subquestion-less problems are not emitted downstream. -/
theorem C7_matching_counterexample :
    ((match_questions_with_elements
        (.arr [.obj [("id", .str "1"), ("subquestions", .arr [])]]) []).map
      fun out => out.map fun mp => mp.subquestions.length) = .ok [0] ∧
    (((do
        let out ← match_questions_with_elements
          (.arr [.obj [("id", .str "1"), ("subquestions", .arr [])]]) []
        answer_questions (fun _ => "") out : Except String (List ProbResult))).map
      fun rs => rs.map fun r => r.num_subquestions) = .ok [0] :=
  ⟨by with_unfolding_all rfl, by with_unfolding_all rfl⟩

/-- Witness for C7: the amended theorem at a concrete one-problem input. -/
theorem C7_matching_emits_all_witness :
    (∀ p ∈ [Json.obj [("id", Json.str "1"), ("related_elements", Json.arr []),
        ("subquestions", Json.arr [fragJson "1" "t"])]], wsProbJ p = true) ∧
    ∃ out, match_questions_with_elements
        (.arr [Json.obj [("id", Json.str "1"), ("related_elements", Json.arr []),
          ("subquestions", Json.arr [fragJson "1" "t"])]]) [] = .ok out ∧
      out.length = 1 ∧
      List.Forall₂ (fun p mp => mp.subquestions.length = (subsOf p).length)
        [Json.obj [("id", Json.str "1"), ("related_elements", Json.arr []),
          ("subquestions", Json.arr [fragJson "1" "t"])]] out := by
  have h : ∀ p ∈ [Json.obj [("id", Json.str "1"), ("related_elements", Json.arr []),
      ("subquestions", Json.arr [fragJson "1" "t"])]], wsProbJ p = true := by
    intro p hp
    rcases List.mem_singleton.mp hp with rfl
    with_unfolding_all rfl
  exact ⟨h, C7_matching_emits_all _ [] h⟩

/- ---------------------------------------------------------------
   Proof infrastructure: answer aggregation
   --------------------------------------------------------------- -/

def isStrJ : Json → Bool
  | .str _ => true
  | _ => false

/-- `problem_text` values that survive line 539 without raising:
falsy, or a string. -/
def textOkJ (j : Json) : Bool := !j.truthy || isStrJ j

def isArrAllObj : Json → Bool
  | .arr l => l.all isObjJ
  | _ => false

/-- Sufficient shape of one answer response: parse failure (handled by the
`except:` branch), or a decode whose `problem_text` is falsy-or-string and
whose `answers` value is a list of dicts. -/
def wsAnswerResp (resp : String) : Bool :=
  match answer_parse_try resp with
  | .error _ => true
  | .ok ma => textOkJ ma.1 && isArrAllObj ma.2

lemma finalText_ok (mpt pt : Json) (h : textOkJ mpt = true) :
    ∃ t, finalText mpt pt = .ok t := by
  by_cases hm : mpt.truthy = true
  · rw [textOkJ, hm] at h
    simp only [Bool.not_true, Bool.false_or] at h
    obtain ⟨s, rfl⟩ : ∃ s, mpt = .str s := by
      cases mpt
      case str s => exact ⟨s, rfl⟩
      all_goals simp_all [isStrJ]
    unfold finalText
    rw [hm]
    exact ⟨_, rfl⟩
  · have hm2 : mpt.truthy = false := by
      cases hv : mpt.truthy
      · rfl
      · exact absurd hv hm
    unfold finalText
    rw [hm2]
    exact ⟨pt, rfl⟩

lemma alignOne_obj_ok (pid : Json) (subqs : List Question) (i : Nat)
    (kvs : List (String × Json)) :
    ∃ sr, alignOne pid subqs i (.obj kvs) = .ok sr :=
  ⟨_, rfl⟩

lemma align_go_ok (pid : Json) (subqs : List Question) :
    ∀ (i : Nat) (l : List Json), (∀ a ∈ l, isObjJ a = true) →
    ∃ rs, align_go pid subqs i l = .ok rs ∧ rs.length = l.length := by
  intro i l
  induction l generalizing i with
  | nil => exact fun _ => ⟨[], rfl, rfl⟩
  | cons a rest ih =>
    intro h
    obtain ⟨kvs, rfl⟩ : ∃ kvs, a = .obj kvs := by
      have := h a (List.mem_cons_self a rest)
      cases a <;> simp_all [isObjJ]
    obtain ⟨sr, hsr⟩ := alignOne_obj_ok pid subqs i kvs
    obtain ⟨rs, hrs, hlen⟩ := ih (i + 1) fun x hx => h x (List.mem_cons_of_mem _ hx)
    refine ⟨sr :: rs, ?_, by simp [hlen]⟩
    simp only [align_go]
    rw [hsr, exc_bind_ok, hrs, exc_bind_ok]

lemma align_go_failure (pid : Json) (subqs : List Question) (resp : String) :
    ∀ (i : Nat) (l : List Question),
    ∃ rs, align_go pid subqs i (l.map fun sq =>
        Json.obj [("sub_id", sq.id), ("answer", Json.str resp), ("reason", Json.str "")]) =
        .ok rs ∧
      rs.length = l.length ∧
      ∀ sr ∈ rs, sr.answer = .str resp ∧ sr.reason = .str "" := by
  intro i l
  induction l generalizing i with
  | nil => exact ⟨[], rfl, rfl, by simp⟩
  | cons sq rest ih =>
    obtain ⟨rs, hrs, hlen, hfields⟩ := ih (i + 1)
    obtain ⟨sr, hsr, ha, hb⟩ : ∃ sr, alignOne pid subqs i
        (Json.obj [("sub_id", sq.id), ("answer", Json.str resp), ("reason", Json.str "")]) =
        .ok sr ∧ sr.answer = .str resp ∧ sr.reason = .str "" := ⟨_, rfl, rfl, rfl⟩
    refine ⟨sr :: rs, ?_, by simp [hlen], ?_⟩
    · simp only [List.map_cons, align_go]
      rw [hsr, exc_bind_ok, hrs, exc_bind_ok]
    · intro x hx
      rcases List.mem_cons.mp hx with rfl | hx2
      · exact ⟨ha, hb⟩
      · exact hfields x hx2

lemma answer_one_failure (resp : String) (prob : MatchedProblem) (e : String)
    (hfail : answer_parse_try resp = .error e) :
    ∃ r, answer_one resp prob = .ok r ∧
      r.num_subquestions = prob.subquestions.length ∧
      r.subanswers.length = prob.subquestions.length ∧
      r.problem_text = (if prob.text.truthy then prob.text else .str "") ∧
      ∀ sr ∈ r.subanswers, sr.answer = .str resp ∧ sr.reason = .str "" := by
  obtain ⟨rs, hrs, hlen, hfields⟩ :=
    align_go_failure prob.id prob.subquestions resp 0 prob.subquestions
  have hcond : ¬(rs.isEmpty = true ∧ ¬(prob.subquestions.isEmpty = true)) := by
    rintro ⟨h1, h2⟩
    apply h2
    have h3 : rs = [] := by
      cases rs
      · rfl
      · simp at h1
    rw [h3] at hlen
    cases hq : prob.subquestions
    · rfl
    · rw [hq] at hlen
      simp at hlen
  unfold answer_one
  rw [hfail]
  dsimp only []
  rw [show pyIterate (failureAnswers resp prob.subquestions) =
      .ok (prob.subquestions.map fun sq =>
        Json.obj [("sub_id", sq.id), ("answer", Json.str resp), ("reason", Json.str "")])
      from rfl,
    exc_bind_ok, hrs, exc_bind_ok, if_neg hcond,
    show finalText Json.null (if prob.text.truthy then prob.text else Json.str "") =
      .ok (if prob.text.truthy then prob.text else Json.str "") from rfl,
    exc_bind_ok]
  exact ⟨_, rfl, rfl, hlen, rfl, hfields⟩

lemma answer_one_parsed (resp : String) (prob : MatchedProblem) (mpt : Json) (l : List Json)
    (hok : answer_parse_try resp = .ok (mpt, .arr l))
    (hobj : ∀ a ∈ l, isObjJ a = true)
    (htOk : textOkJ mpt = true) :
    ∃ r, answer_one resp prob = .ok r ∧
      r.num_subquestions = prob.subquestions.length ∧
      r.subanswers.length = (if l.isEmpty then prob.subquestions.length else l.length) := by
  obtain ⟨rs, hrs, hlen⟩ := align_go_ok prob.id prob.subquestions 0 l hobj
  obtain ⟨t, hft⟩ := finalText_ok mpt (if prob.text.truthy then prob.text else .str "") htOk
  unfold answer_one
  rw [hok]
  dsimp only []
  rw [show pyIterate (Json.arr l) = .ok l from rfl, exc_bind_ok, hrs, exc_bind_ok, hft,
    exc_bind_ok]
  refine ⟨_, rfl, rfl, ?_⟩
  show (if rs.isEmpty = true ∧ ¬(prob.subquestions.isEmpty = true) then
      prob.subquestions.map fun sq =>
        ({ problem_id := prob.id, sub_id := sq.id, sub_text := sq.text,
           sub_images := sq.images, answer := .str "", reason := .str "" } : SubResult)
    else rs).length = (if l.isEmpty then prob.subquestions.length else l.length)
  by_cases hl : l = []
  · subst hl
    have h3 : rs = [] := by
      cases rs
      · rfl
      · simp at hlen
    subst h3
    by_cases hq : prob.subquestions.isEmpty = true
    · rw [if_neg (by rintro ⟨_, h2⟩; exact h2 hq)]
      have hq2 : prob.subquestions = [] := List.isEmpty_iff.mp hq
      simp [hq2]
    · rw [if_pos ⟨rfl, hq⟩]
      simp
  · have hre : rs.isEmpty = false := by
      cases rs with
      | nil =>
        cases l with
        | nil => exact absurd rfl hl
        | cons a t => simp at hlen
      | cons a t => rfl
    rw [if_neg (by rintro ⟨h1, _⟩; rw [hre] at h1; cases h1),
      if_neg (show ¬(l.isEmpty = true) from by
        intro h
        apply hl
        cases l
        · rfl
        · simp at h)]
    exact hlen

lemma answer_one_ok (resp : String) (prob : MatchedProblem)
    (h : wsAnswerResp resp = true) :
    ∃ r, answer_one resp prob = .ok r := by
  cases hp : answer_parse_try resp with
  | error e =>
    obtain ⟨r, hr, _⟩ := answer_one_failure resp prob e hp
    exact ⟨r, hr⟩
  | ok ma =>
    obtain ⟨mpt, ans⟩ := ma
    have h2 : (textOkJ mpt && isArrAllObj ans) = true := by
      have hw : wsAnswerResp resp = (match answer_parse_try resp with
        | .error _ => true
        | .ok ma => textOkJ ma.1 && isArrAllObj ma.2) := rfl
      rw [hw, hp] at h
      exact h
    simp only [Bool.and_eq_true] at h2
    obtain ⟨ht, ha⟩ := h2
    obtain ⟨l, rfl⟩ : ∃ l, ans = .arr l := by
      cases hv : ans <;> rw [hv] at ha <;> simp_all [isArrAllObj]
    have hobj : ∀ a ∈ l, isObjJ a = true := by
      rw [show isArrAllObj (Json.arr l) = l.all isObjJ from rfl] at ha
      exact List.all_eq_true.mp ha
    obtain ⟨r, hr, _⟩ := answer_one_parsed resp prob mpt l hp hobj ht
    exact ⟨r, hr⟩

lemma answer_go_ok (oracle : Nat → String) (hor : ∀ i, wsAnswerResp (oracle i) = true) :
    ∀ (i : Nat) (problems : List MatchedProblem),
    ∃ rs, answer_go oracle i problems = .ok rs := by
  intro i problems
  induction problems generalizing i with
  | nil => exact ⟨[], rfl⟩
  | cons p rest ih =>
    obtain ⟨r, hr⟩ := answer_one_ok (oracle i) p (hor i)
    obtain ⟨rs, hrs⟩ := ih (i + 1)
    refine ⟨r :: rs, ?_⟩
    simp only [answer_go]
    rw [hr, exc_bind_ok, hrs, exc_bind_ok]

/-- Counterexample for C1: a problem with two subquestions and a parsed
answers array holding a single entry yields ONE answer record against a
subquestion count of two — the code backfills only when the whole
per-problem result list is empty, never when the parsed array is merely
shorter than the subquestion list. -/
theorem C1_answer_completeness_counterexample :
    ((answer_questions
        (fun _ => "\x7b\"answers\":[\x7b\"sub_id\":\"1a\",\"answer\":\"x\",\"reason\":\"r\"\x7d]\x7d")
        [⟨.str "1", .str "stem", .arr [.int 1], [],
          [⟨.str "1a", .str "Q1", [], .arr [.int 1], []⟩,
           ⟨.str "1b", .str "Q2", [], .arr [.int 1], []⟩]⟩]).map
      fun rs => rs.map fun r => (r.num_subquestions, r.subanswers.length)) = .ok [(2, 1)] := by
  with_unfolding_all rfl

/-- Claim C1, amended: per problem, the answers list length equals the
subquestion count when the oracle response fails to parse OR when the
parsed answers array is empty; when the parsed answers array is nonempty,
the length equals that array's length instead — an array shorter (or
longer) than the subquestion list is neither padded nor trimmed. -/
theorem C1_answer_completeness (resp : String) (prob : MatchedProblem) :
    (∀ e, answer_parse_try resp = .error e →
      ∃ r, answer_one resp prob = .ok r ∧ r.num_subquestions = prob.subquestions.length ∧
        r.subanswers.length = prob.subquestions.length) ∧
    (∀ mpt l, answer_parse_try resp = .ok (mpt, .arr l) →
      (∀ a ∈ l, isObjJ a = true) → textOkJ mpt = true →
      ∃ r, answer_one resp prob = .ok r ∧ r.num_subquestions = prob.subquestions.length ∧
        r.subanswers.length = (if l.isEmpty then prob.subquestions.length else l.length)) := by
  constructor
  · intro e he
    obtain ⟨r, hr, h1, h2, _, _⟩ := answer_one_failure resp prob e he
    exact ⟨r, hr, h1, h2⟩
  · intro mpt l hok hobj htOk
    exact answer_one_parsed resp prob mpt l hok hobj htOk

/-- Witness for C1: the parsed branch at a concrete one-answer response
and a two-subquestion problem. -/
theorem C1_answer_completeness_witness :
    answer_parse_try
        "\x7b\"answers\":[\x7b\"sub_id\":\"1a\",\"answer\":\"x\",\"reason\":\"r\"\x7d]\x7d" =
      .ok (.null, .arr [.obj [("sub_id", .str "1a"), ("answer", .str "x"),
        ("reason", .str "r")]]) ∧
    ∃ r, answer_one
        "\x7b\"answers\":[\x7b\"sub_id\":\"1a\",\"answer\":\"x\",\"reason\":\"r\"\x7d]\x7d"
        ⟨.str "1", .str "stem", .arr [.int 1], [],
          [⟨.str "1a", .str "Q1", [], .arr [.int 1], []⟩,
           ⟨.str "1b", .str "Q2", [], .arr [.int 1], []⟩]⟩ = .ok r ∧
      r.num_subquestions = 2 ∧ r.subanswers.length = 1 := by
  refine ⟨by with_unfolding_all rfl, ?_⟩
  obtain ⟨r, hr, h1, h2⟩ :=
    (C1_answer_completeness
      "\x7b\"answers\":[\x7b\"sub_id\":\"1a\",\"answer\":\"x\",\"reason\":\"r\"\x7d]\x7d"
      ⟨.str "1", .str "stem", .arr [.int 1], [],
        [⟨.str "1a", .str "Q1", [], .arr [.int 1], []⟩,
         ⟨.str "1b", .str "Q2", [], .arr [.int 1], []⟩]⟩).2
      .null [.obj [("sub_id", .str "1a"), ("answer", .str "x"), ("reason", .str "r")]]
      (by with_unfolding_all rfl)
      (by
        intro a ha
        rcases List.mem_singleton.mp ha with rfl
        rfl)
      rfl
  exact ⟨r, hr, h1, h2⟩

/-- Claim C2: when the per-problem answer response cannot be parsed as
JSON (the `except:` path, triggered by the sentinel failure string, the
empty response, undecodable text, and the `len()` of a non-sized
`answers` value alike), aggregation emits exactly one
record per subquestion whose answer text is the raw oracle response and
whose reasoning text is empty, and the problem text keeps the originally
extracted stem (`prob.text`, normalized by `or ""`) — no oracle
override. -/
theorem C2_parse_failure_degraded (resp : String) (prob : MatchedProblem) (e : String)
    (hfail : answer_parse_try resp = .error e) :
    ∃ r, answer_one resp prob = .ok r ∧
      r.subanswers.length = prob.subquestions.length ∧
      r.problem_text = (if prob.text.truthy then prob.text else .str "") ∧
      ∀ sr ∈ r.subanswers, sr.answer = .str resp ∧ sr.reason = .str "" := by
  obtain ⟨r, h0, _, h2, h3, h4⟩ := answer_one_failure resp prob e hfail
  exact ⟨r, h0, h2, h3, h4⟩

/-- Witness for C2: the sentinel failure response against a concrete
two-subquestion problem. -/
theorem C2_parse_failure_degraded_witness :
    answer_parse_try "❌ API调用最终失败" = .error "ValueError" ∧
    ∃ r, answer_one "❌ API调用最终失败"
        ⟨.str "1", .str "stem", .arr [.int 1], [],
          [⟨.str "1a", .str "Q1", [], .arr [.int 1], []⟩,
           ⟨.str "1b", .str "Q2", [], .arr [.int 1], []⟩]⟩ = .ok r ∧
      r.subanswers.length = 2 ∧
      r.problem_text = .str "stem" ∧
      ∀ sr ∈ r.subanswers, sr.answer = .str "❌ API调用最终失败" ∧ sr.reason = .str "" := by
  refine ⟨by with_unfolding_all rfl, ?_⟩
  obtain ⟨r, h0, h1, h2, h3⟩ := C2_parse_failure_degraded "❌ API调用最终失败"
    ⟨.str "1", .str "stem", .arr [.int 1], [],
      [⟨.str "1a", .str "Q1", [], .arr [.int 1], []⟩,
       ⟨.str "1b", .str "Q2", [], .arr [.int 1], []⟩]⟩ "ValueError"
    (by with_unfolding_all rfl)
  exact ⟨r, h0, h1, h2, h3⟩

/- ---------------------------------------------------------------
   Proof infrastructure: structure-inference totality
   --------------------------------------------------------------- -/

lemma regex_frags_obj (elements : List PageElement) :
    ∀ q ∈ parse_questions_regex elements, isObjJ q = true := by
  intro q hq
  simp only [parse_questions_regex] at hq
  obtain ⟨rawLine, _, hsome⟩ := List.mem_filterMap.mp hq
  by_cases h0 : pyStrip rawLine = ""
  · rw [if_pos h0] at hsome
    cases hsome
  · rw [if_neg h0] at hsome
    cases hm : matchLine (pyStrip rawLine).data with
    | none => rw [hm] at hsome; cases hsome
    | some qid =>
      rw [hm] at hsome
      cases hsome
      rfl

lemma identify_total (result : String) (elements : List PageElement) :
    ∃ j, identify_questions_structure result elements = .ok j := by
  have hunfold : identify_questions_structure result elements =
      (match identify_try result with
       | .ok probs => .ok probs
       | .error _ => do
         let probs ← group_questions_by_pfx
           (parse_questions_regex (sort_elements elements))
         Except.ok (Json.arr probs)) := rfl
  cases hi : identify_try result with
  | ok probs => exact ⟨probs, by rw [hunfold, hi]⟩
  | error e =>
    obtain ⟨probs, hp, _, _, _⟩ :=
      group_spec _ (regex_frags_obj (sort_elements elements))
    refine ⟨.arr probs, ?_⟩
    rw [hunfold, hi, hp]
    rfl

/-- Counterexample for C8: a response that decodes to a valid JSON object
carrying neither a "problems" nor a "questions" key — an invalid format —
makes the stage return the empty hierarchy directly, even though the
Regex-Fallback-plus-Grouping hierarchy on the same elements is nonempty;
so on invalid format the stage does NOT return the fallback hierarchy. -/
theorem C8_structure_fallback_counterexample :
    identify_questions_structure "\x7b\"x\": 1\x7d"
        [⟨.text, "1. hi", 0, 0, 0, 0, 1⟩] = .ok (.arr []) ∧
    (do
      let probs ← group_questions_by_pfx
        (parse_questions_regex (sort_elements [⟨.text, "1. hi", 0, 0, 0, 0, 1⟩]))
      Except.ok (Json.arr probs)) =
      Except.ok (Json.arr [probJson "1" [fragJson "1" "1. hi"]]) ∧
    Json.arr ([] : List Json) ≠ Json.arr [probJson "1" [fragJson "1" "1. hi"]] := by
  refine ⟨by with_unfolding_all rfl, by with_unfolding_all rfl, ?_⟩
  intro h
  injection h with h1
  exact List.noConfusion h1

/-- Claim C8, amended: structure inference is total — for every oracle
response (empty, the sentinel failure string, or garbage alike) it
returns a value rather than raising, the empty response and the sentinel
both raise inside the `try:` body, and whenever that body raises the
result is exactly Regex Fallback followed by Prefix Grouping on the
sorted elements (at least an empty list); however, a response that
decodes to a valid JSON object with neither a truthy "problems" nor a
list "questions" returns the empty hierarchy directly, not the regex
fallback (see the counterexample). -/
theorem C8_structure_fallback (result : String) (elements : List PageElement) :
    (∃ j, identify_questions_structure result elements = .ok j) ∧
    identify_try "" = .error "ValueError" ∧
    identify_try apiFailSentinel = .error "ValueError" ∧
    (∀ e, identify_try result = .error e →
      ∃ probs, group_questions_by_pfx
          (parse_questions_regex (sort_elements elements)) = .ok probs ∧
        identify_questions_structure result elements = .ok (.arr probs)) := by
  refine ⟨identify_total result elements, by with_unfolding_all rfl,
    by with_unfolding_all rfl, ?_⟩
  intro e he
  obtain ⟨probs, hp, _, _, _⟩ :=
    group_spec _ (regex_frags_obj (sort_elements elements))
  refine ⟨probs, hp, ?_⟩
  have hunfold : identify_questions_structure result elements =
      (match identify_try result with
       | .ok probs => .ok probs
       | .error _ => do
         let probs ← group_questions_by_pfx
           (parse_questions_regex (sort_elements elements))
         Except.ok (Json.arr probs)) := rfl
  rw [hunfold, he, hp]
  rfl

/-- Witness for C8: the fallback branch at the empty response over one
concrete text element. -/
theorem C8_structure_fallback_witness :
    identify_try "" = .error "ValueError" ∧
    ∃ probs, group_questions_by_pfx
        (parse_questions_regex (sort_elements [⟨.text, "1. hi", 0, 0, 0, 0, 1⟩])) =
        .ok probs ∧
      identify_questions_structure "" [⟨.text, "1. hi", 0, 0, 0, 0, 1⟩] =
        .ok (.arr probs) := by
  refine ⟨by with_unfolding_all rfl, ?_⟩
  exact (C8_structure_fallback "" [⟨.text, "1. hi", 0, 0, 0, 0, 1⟩]).2.2.2
    "ValueError" (by with_unfolding_all rfl)

/- ---------------------------------------------------------------
   Proof infrastructure: the complete pipeline
   --------------------------------------------------------------- -/

/-- The value structure inference hands to the pipeline (statement
helper; by `identify_total` the error branch is unreachable). -/
def identifyValue (result : String) (elements : List PageElement) : Json :=
  match identify_questions_structure result elements with
  | .ok j => j
  | .error _ => .arr []

lemma identify_eq_value (result : String) (elements : List PageElement) :
    identify_questions_structure result elements = .ok (identifyValue result elements) := by
  obtain ⟨j, hj⟩ := identify_total result elements
  have h2 : identifyValue result elements = j := by
    rw [identifyValue, hj]
  rw [h2, hj]

/-- Counterexample for C9: a structure response decoding to
`\x7b"problems": ["x"]\x7d` makes Element Matching call `.get` on the
string entry, and the resulting `AttributeError` propagates out of the
pipeline uncaught — the run returns neither the success shape nor an
`\x7berror, step\x7d` value, and the failure is not an empty stage
boundary. -/
theorem C9_pipeline_shapes_counterexample :
    process_homework_complete "\x7b\"problems\": [\"x\"]\x7d" (fun _ => "")
        [⟨.text, "1. hi", 0, 0, 0, 0, 1⟩] =
      .error "AttributeError: no attribute get" := by
  with_unfolding_all rfl

/-- Claim C9, amended: when the inferred problems value is well-shaped
and every answer response is parse-safe, the pipeline returns exactly one
of the two shapes, and reports an error exactly at an empty stage
boundary — no elements gives step 1, a non-truthy (empty) inferred
problems value gives step 2, an empty matched-problems list gives step 3,
and otherwise it returns the success shape with the element and problem
totals; without the well-shapedness hypothesis an exception can propagate
uncaught (see the counterexample). -/
theorem C9_pipeline_shapes (structResp : String) (oracle : Nat → String)
    (elements : List PageElement)
    (hws : wsProblemsJ (identifyValue structResp elements) = true)
    (hor : ∀ i, wsAnswerResp (oracle i) = true) :
    (elements.isEmpty = true →
      process_homework_complete structResp oracle elements =
        .ok (.err "PDF元素提取失败" 1)) ∧
    (elements.isEmpty = false → (identifyValue structResp elements).truthy = false →
      process_homework_complete structResp oracle elements =
        .ok (.err "题目识别失败" 2)) ∧
    (elements.isEmpty = false → (identifyValue structResp elements).truthy = true →
      ∃ ps out, identifyValue structResp elements = .arr ps ∧
        match_questions_with_elements (.arr ps) (sort_elements elements) = .ok out ∧
        (out.isEmpty = true →
          process_homework_complete structResp oracle elements =
            .ok (.err "题目匹配失败" 3)) ∧
        (out.isEmpty = false →
          ∃ rs, process_homework_complete structResp oracle elements =
            .ok (.success elements.length out.length rs))) := by
  have hunfold : process_homework_complete structResp oracle elements =
      (if elements.isEmpty then .ok (.err "PDF元素提取失败" 1)
       else do
         let problems_info ← identify_questions_structure structResp elements
         if !problems_info.truthy then .ok (.err "题目识别失败" 2)
         else do
           let problems ← match_questions_with_elements problems_info
             (sort_elements elements)
           if problems.isEmpty then .ok (.err "题目匹配失败" 3)
           else do
             let results ← answer_questions oracle problems
             Except.ok (PipelineResult.success elements.length problems.length
               results)) := rfl
  refine ⟨?_, ?_, ?_⟩
  · intro he
    rw [hunfold, he]
    rfl
  · intro he ht
    rw [hunfold, he, identify_eq_value structResp elements, exc_bind_ok, ht]
    rfl
  · intro he ht
    obtain ⟨ps, hps, hall⟩ : ∃ ps, identifyValue structResp elements = .arr ps ∧
        ∀ p ∈ ps, wsProbJ p = true := by
      cases hv : identifyValue structResp elements <;> rw [hv] at hws <;>
        simp only [wsProblemsJ] at hws
      case arr xs => exact ⟨xs, rfl, List.all_eq_true.mp hws⟩
      all_goals exact absurd hws (by decide)
    obtain ⟨out, hout0, hfa⟩ := match_problems_go_ok (sort_elements elements) 0 ps hall
    have hout : match_questions_with_elements (.arr ps) (sort_elements elements) =
        .ok out := by
      unfold match_questions_with_elements
      rw [show pyIterate (Json.arr ps) = .ok ps from rfl, exc_bind_ok, hout0]
    have hstep : process_homework_complete structResp oracle elements =
        (do
          let problems ← match_questions_with_elements (Json.arr ps)
            (sort_elements elements)
          if problems.isEmpty then .ok (.err "题目匹配失败" 3)
          else do
            let results ← answer_questions oracle problems
            Except.ok (PipelineResult.success elements.length problems.length
              results)) := by
      rw [hunfold, he, identify_eq_value structResp elements, exc_bind_ok, ht, hps]
      rfl
    refine ⟨ps, out, hps, hout, ?_, ?_⟩
    · intro hoe
      rw [hstep, hout, exc_bind_ok, hoe]
      rfl
    · intro hne
      obtain ⟨rs, hrs⟩ := answer_go_ok oracle hor 0 out
      refine ⟨rs, ?_⟩
      rw [hstep, hout, exc_bind_ok, hne,
        show answer_questions oracle out = Except.ok rs from hrs, exc_bind_ok]
      rfl

/-- Witness for C9: a one-element document whose structure response is
empty, so the regex fallback infers one problem and the run succeeds. -/
theorem C9_pipeline_shapes_witness :
    ∃ ps out, identifyValue "" [⟨.text, "1. hi", 0, 0, 0, 0, 1⟩] = .arr ps ∧
      match_questions_with_elements (.arr ps)
        (sort_elements [⟨.text, "1. hi", 0, 0, 0, 0, 1⟩]) = .ok out ∧
      (out.isEmpty = true →
        process_homework_complete "" (fun _ => "")
            [⟨.text, "1. hi", 0, 0, 0, 0, 1⟩] = .ok (.err "题目匹配失败" 3)) ∧
      (out.isEmpty = false →
        ∃ rs, process_homework_complete "" (fun _ => "")
            [⟨.text, "1. hi", 0, 0, 0, 0, 1⟩] =
          .ok (.success ([⟨.text, "1. hi", 0, 0, 0, 0, 1⟩] :
            List PageElement).length out.length rs)) := by
  exact (C9_pipeline_shapes "" (fun _ => "") [⟨.text, "1. hi", 0, 0, 0, 0, 1⟩]
    (by with_unfolding_all rfl) (fun i => by with_unfolding_all rfl)).2.2
    rfl (by with_unfolding_all rfl)

